import Mathlib

/-!
# Juice Cafe front end: menu page (`menu.js`) and kitchen display (`kitchen.js`)

A shallow embedding of the two client scripts.  Module-level `let` variables
become fields of an explicit state record, DOM writes become fields holding
the value written, and an `await` splits a function into the part before the
suspension and the part that runs when the awaited promise settles.
-/

namespace JuiceCafe

/-! ## JavaScript numbers

Prices and totals are JavaScript `Number`s, that is IEEE-754 binary64 values.
A finite value is represented by the rational it denotes (the sign of zero is
not kept); `+` and `*` compute the exact result and round it to the nearest
binary64 value, ties to even.  Quantities are counters that only move by one;
they are kept as natural numbers (a binary64 counter is exact below `2 ^ 53`).
-/

/-- A JavaScript `Number`. -/
inductive JsNum where
  | fin (q : ℚ)
  | posInf
  | negInf
  | nan
  deriving DecidableEq, Repr

/-- Power of two with an integer exponent. -/
def pow2 (e : Int) : ℚ :=
  if 0 ≤ e then ((2 ^ e.toNat : Nat) : ℚ) else 1 / ((2 ^ (-e).toNat : Nat) : ℚ)

/-- Base-2 logarithm of a natural number, rounded down, by repeated halving;
`fuel` bounds the number of halvings. -/
def log2Fuel : Nat → Nat → Nat
  | 0, _ => 0
  | fuel + 1, n => if n < 2 then 0 else log2Fuel fuel (n / 2) + 1

/-- Base-2 logarithm of a natural number, rounded down (`0` for `0`). -/
def natLog2 (n : Nat) : Nat := log2Fuel n n

/-- Exponent `e` with `2 ^ e ≤ a < 2 ^ (e + 1)`, for positive `a`. -/
def floorLog2 (a : ℚ) : Int :=
  let e0 : Int := (natLog2 a.num.natAbs : Int) - (natLog2 a.den : Int)
  if a < pow2 e0 then e0 - 1 else e0

/-- Nearest natural number to a non-negative rational, ties to even. -/
def roundHalfEven (x : ℚ) : Nat :=
  let f : Nat := x.num.natAbs / x.den
  let r : ℚ := x - (f : ℚ)
  if r < 1 / 2 then f
  else if 1 / 2 < r then f + 1
  else if f % 2 = 0 then f else f + 1

/-- Rounding of an exact result to binary64: 53 significant bits, least
exponent `-1074` (subnormals), overflow to an infinity from `2 ^ 1024`. -/
def roundDouble (q : ℚ) : JsNum :=
  if q = 0 then JsNum.fin 0
  else
    let a : ℚ := |q|
    let u : Int := max (floorLog2 a - 52) (-1074)
    let v : ℚ := (roundHalfEven (a / pow2 u) : ℚ) * pow2 u
    if pow2 1024 ≤ v then (if 0 < q then JsNum.posInf else JsNum.negInf)
    else JsNum.fin (if 0 < q then v else -v)

/-- JavaScript `a + b` on numbers. -/
def jsAdd : JsNum → JsNum → JsNum
  | JsNum.nan, _ => JsNum.nan
  | _, JsNum.nan => JsNum.nan
  | JsNum.posInf, JsNum.negInf => JsNum.nan
  | JsNum.negInf, JsNum.posInf => JsNum.nan
  | JsNum.posInf, _ => JsNum.posInf
  | _, JsNum.posInf => JsNum.posInf
  | JsNum.negInf, _ => JsNum.negInf
  | _, JsNum.negInf => JsNum.negInf
  | JsNum.fin a, JsNum.fin b => roundDouble (a + b)

/-- Product of an infinity of the given sign with a finite factor. -/
def infTimes (positive : Bool) (q : ℚ) : JsNum :=
  if q = 0 then JsNum.nan
  else if (0 < q) = positive then JsNum.posInf else JsNum.negInf

/-- JavaScript `a * b` on numbers. -/
def jsMul : JsNum → JsNum → JsNum
  | JsNum.nan, _ => JsNum.nan
  | _, JsNum.nan => JsNum.nan
  | JsNum.posInf, JsNum.posInf => JsNum.posInf
  | JsNum.negInf, JsNum.negInf => JsNum.posInf
  | JsNum.posInf, JsNum.negInf => JsNum.negInf
  | JsNum.negInf, JsNum.posInf => JsNum.negInf
  | JsNum.posInf, JsNum.fin q => infTimes true q
  | JsNum.fin q, JsNum.posInf => infTimes true q
  | JsNum.negInf, JsNum.fin q => infTimes false q
  | JsNum.fin q, JsNum.negInf => infTimes false q
  | JsNum.fin a, JsNum.fin b => roundDouble (a * b)

/-- A quantity counter read as a number. -/
def JsNum.ofNat (n : Nat) : JsNum := JsNum.fin (n : ℚ)

/-! ## Menu page: data model -/

/-- An entry of the array returned by `GET /api/menu`. -/
structure MenuItem where
  id : String
  name : String
  description : String
  category : String
  price : JsNum
  imageUrl : String
  deriving DecidableEq, Repr

/-- An element of `currentOrder`. -/
structure CartLine where
  menuItemId : String
  name : String
  price : JsNum
  quantity : Nat
  deriving DecidableEq, Repr

/-- A row of the order summary: name, `x${quantity}` and the number whose
`toFixed(2)` text is shown as the line price. -/
structure OrderRow where
  name : String
  quantity : Nat
  linePrice : JsNum
  deriving DecidableEq, Repr

/-- What `orderItemsContainer.innerHTML` holds. -/
inductive OrderItemsView where
  | unset
  | emptyOrder
  | rows (rs : List OrderRow)
  deriving DecidableEq, Repr

/-- What `orderTotalElement.textContent` holds: a string literal, or the
text `total.toFixed(2)` of a number. -/
inductive TotalText where
  | literal (s : String)
  | toFixed2 (total : JsNum)
  deriving DecidableEq, Repr

/-- An element of the `items` array of the request body. -/
structure OrderItemRecord where
  menuItemId : String
  name : String
  deriving DecidableEq, Repr

/-- The body of `POST /api/orders`: `{ items: orderItems }`. -/
structure OrderRequest where
  items : List OrderItemRecord
  deriving DecidableEq, Repr

/-- The module state of `menu.js` together with the DOM properties it writes. -/
structure MenuState where
  menuItems : List MenuItem
  currentOrder : List CartLine
  isSubmitting : Bool
  orderItemsView : OrderItemsView
  orderTotalText : TotalText
  placeOrderBtnDisabled : Bool
  placeOrderBtnLoading : Bool
  confirmedOrderId : Option (Option String)
  modalActive : Bool
  alerts : List String
  requests : List OrderRequest
  deriving DecidableEq, Repr

/-- State once the menu is loaded; `btnDisabled` and `totalText` are what the
page markup gives the button and the total before any script writes them. -/
def MenuState.init (menu : List MenuItem) (btnDisabled : Bool) (totalText : String) :
    MenuState :=
  { menuItems := menu
    currentOrder := []
    isSubmitting := false
    orderItemsView := OrderItemsView.unset
    orderTotalText := TotalText.literal totalText
    placeOrderBtnDisabled := btnDisabled
    placeOrderBtnLoading := false
    confirmedOrderId := none
    modalActive := false
    alerts := []
    requests := [] }

/-! ## Menu page: cart operations -/

/-- The accumulation of `updateOrderDisplay`:
`currentOrder.reduce((sum, item) => sum + (item.price * item.quantity), 0)`. -/
def orderTotal (cart : List CartLine) : JsNum :=
  cart.foldl (fun sum item => jsAdd sum (jsMul item.price (JsNum.ofNat item.quantity)))
    (JsNum.fin 0)

/-- Model of `updateOrderDisplay`. -/
def updateOrderDisplay (s : MenuState) : MenuState :=
  if s.currentOrder.length = 0 then
    { s with
      orderItemsView := OrderItemsView.emptyOrder
      orderTotalText := TotalText.literal "0.00"
      placeOrderBtnDisabled := true }
  else
    { s with
      orderItemsView := OrderItemsView.rows
        (s.currentOrder.map fun item =>
          { name := item.name
            quantity := item.quantity
            linePrice := jsMul item.price (JsNum.ofNat item.quantity) })
      orderTotalText := TotalText.toFixed2 (orderTotal s.currentOrder)
      placeOrderBtnDisabled := false }

/-- Model of `addToOrder`. -/
def addToOrder (s : MenuState) (itemId : String) : MenuState :=
  match s.menuItems.find? (fun item => item.id == itemId) with
  | none => s
  | some menuItem =>
    match s.currentOrder.findIdx? (fun item => item.menuItemId == itemId) with
    | some i =>
      match s.currentOrder[i]? with
      | some existingItem =>
        updateOrderDisplay
          { s with
            currentOrder :=
              s.currentOrder.set i { existingItem with quantity := existingItem.quantity + 1 } }
      | none => updateOrderDisplay s
    | none =>
      updateOrderDisplay
        { s with
          currentOrder := s.currentOrder ++
            [{ menuItemId := menuItem.id
               name := menuItem.name
               price := menuItem.price
               quantity := 1 }] }

/-- Model of `removeFromOrder`. -/
def removeFromOrder (s : MenuState) (itemId : String) : MenuState :=
  match s.currentOrder.findIdx? (fun item => item.menuItemId == itemId) with
  | some itemIndex =>
    match s.currentOrder[itemIndex]? with
    | some line =>
      if line.quantity > 1 then
        updateOrderDisplay
          { s with
            currentOrder :=
              s.currentOrder.set itemIndex { line with quantity := line.quantity - 1 } }
      else
        updateOrderDisplay { s with currentOrder := s.currentOrder.eraseIdx itemIndex }
    | none => updateOrderDisplay s
  | none => updateOrderDisplay s

/-! ## Menu page: order submission -/

/-- The inner loop of the expansion, `for (let i = 0; i < item.quantity; i++)`,
with `remaining` iterations still to run: each one pushes a record. -/
def pushUnits (item : CartLine) : Nat → List OrderItemRecord → List OrderItemRecord
  | 0, orderItems => orderItems
  | remaining + 1, orderItems =>
    pushUnits item remaining
      (orderItems ++ [{ menuItemId := item.menuItemId, name := item.name }])

/-- The array `orderItems` built by `handlePlaceOrder`
(`currentOrder.forEach` around the inner loop). -/
def expandOrderItems (cart : List CartLine) : List OrderItemRecord :=
  cart.foldl (fun orderItems item => pushUnits item item.quantity orderItems) []

/-- The parsed body of a response, as far as `handlePlaceOrder` reads it.
`unparseable`: `response.json()` rejects (with a `SyntaxError` of that message).
`null`: the body is JSON `null`, reading a property of it throws a `TypeError`
of that message.  `object`: an object with its `error` and `orderId` strings,
when present. -/
inductive ResponseBody where
  | unparseable (syntaxErrorMessage : String)
  | null (typeErrorMessage : String)
  | object (error : Option String) (orderId : Option String)
  deriving DecidableEq, Repr

/-- How the awaited `fetch` settles: rejected with an error of that message
(transport failure) or fulfilled with a response. -/
inductive FetchOutcome where
  | rejected (message : String)
  | response (status : Nat) (body : ResponseBody)
  deriving DecidableEq, Repr

/-- The `ok` attribute of a response: status in the range 200 to 299. -/
def responseOk (status : Nat) : Bool := 200 ≤ status && status ≤ 299

/-- The operand of `new Error(...)` in the non-success branch:
`errorData.error || ("Order failed: " + status)`; the empty string is falsy. -/
def errorMessageOf (error : Option String) (status : Nat) : String :=
  match error with
  | some e => if e = "" then "Order failed: " ++ toString status else e
  | none => "Order failed: " ++ toString status

/-- The body of the `try` block after the `fetch` settles: the message of the
error it throws, or the `orderId` read from the result. -/
def placeOrderTry : FetchOutcome → Except String (Option String)
  | FetchOutcome.rejected message => Except.error message
  | FetchOutcome.response status body =>
    if !responseOk status then
      match body with
      | ResponseBody.unparseable _ => Except.error (errorMessageOf none status)
      | ResponseBody.null typeErrorMessage => Except.error typeErrorMessage
      | ResponseBody.object error _ => Except.error (errorMessageOf error status)
    else
      match body with
      | ResponseBody.unparseable syntaxErrorMessage => Except.error syntaxErrorMessage
      | ResponseBody.null typeErrorMessage => Except.error typeErrorMessage
      | ResponseBody.object _ orderId => Except.ok orderId

/-- The text passed to `alert` in the `catch` block. -/
def alertText (message : String) : String :=
  "Failed to place order: " ++ message ++ "\n\nPlease try again."

/-- Model of `showConfirmationModal`. -/
def showConfirmationModal (s : MenuState) (orderId : Option String) : MenuState :=
  { s with confirmedOrderId := some orderId, modalActive := true }

/-- The `finally` block of `handlePlaceOrder`. -/
def placeOrderFinally (s : MenuState) : MenuState :=
  { s with
    isSubmitting := false
    placeOrderBtnLoading := false
    placeOrderBtnDisabled := decide (s.currentOrder.length = 0) }

/-- Model of `handlePlaceOrder` up to `await fetch(...)`: the guard, the flag,
the button, and the request that is sent. -/
def handlePlaceOrderStart (s : MenuState) : MenuState :=
  if s.isSubmitting || decide (s.currentOrder.length = 0) then s
  else
    { s with
      isSubmitting := true
      placeOrderBtnLoading := true
      placeOrderBtnDisabled := true
      requests := s.requests ++ [{ items := expandOrderItems s.currentOrder }] }

/-- Model of `handlePlaceOrder` from the point where the `fetch` settles. -/
def handlePlaceOrderSettle (s : MenuState) (outcome : FetchOutcome) : MenuState :=
  match placeOrderTry outcome with
  | Except.ok orderId =>
    placeOrderFinally
      (updateOrderDisplay { showConfirmationModal s orderId with currentOrder := [] })
  | Except.error message =>
    placeOrderFinally { s with alerts := s.alerts ++ [alertText message] }

/-- One call of `handlePlaceOrder` with nothing else running while the request
is pending. -/
def handlePlaceOrder (s : MenuState) (outcome : FetchOutcome) : MenuState :=
  if s.isSubmitting || decide (s.currentOrder.length = 0) then s
  else handlePlaceOrderSettle (handlePlaceOrderStart s) outcome

/-- A call made on the menu page by the customer. -/
inductive CartOp where
  | add (itemId : String)
  | remove (itemId : String)
  deriving DecidableEq, Repr

/-- Effect of one cart call. -/
def applyCartOp (s : MenuState) : CartOp → MenuState
  | CartOp.add itemId => addToOrder s itemId
  | CartOp.remove itemId => removeFromOrder s itemId

/-- Effect of a sequence of cart calls, first call first. -/
def runCartOps (s : MenuState) (ops : List CartOp) : MenuState :=
  ops.foldl applyCartOp s

/-- An event of the menu page. -/
inductive MenuEvent where
  | addToOrder (itemId : String)
  | removeFromOrder (itemId : String)
  | placeOrderClick
  | fetchSettled (outcome : FetchOutcome)
  deriving DecidableEq, Repr

/-- The step relation of the menu page; a `fetch` settles only while a
submission is in flight. -/
inductive MenuStep : MenuState → MenuEvent → MenuState → Prop where
  | add (s : MenuState) (itemId : String) :
    MenuStep s (MenuEvent.addToOrder itemId) (addToOrder s itemId)
  | remove (s : MenuState) (itemId : String) :
    MenuStep s (MenuEvent.removeFromOrder itemId) (removeFromOrder s itemId)
  | click (s : MenuState) :
    MenuStep s MenuEvent.placeOrderClick (handlePlaceOrderStart s)
  | settle (s : MenuState) (outcome : FetchOutcome) (h : s.isSubmitting = true) :
    MenuStep s (MenuEvent.fetchSettled outcome) (handlePlaceOrderSettle s outcome)

/-- States reachable from a given state. -/
inductive MenuReachable (s0 : MenuState) : MenuState → Prop where
  | start : MenuReachable s0 s0
  | step {s t : MenuState} (ev : MenuEvent) :
    MenuReachable s0 s → MenuStep s ev t → MenuReachable s0 t

/-- The quantity of an identifier in a cart: that of its line, or `0`. -/
def quantityOf (cart : List CartLine) (x : String) : Nat :=
  match cart.find? (fun item => item.menuItemId == x) with
  | some line => line.quantity
  | none => 0

/-- The identifier has a line in the cart. -/
def hasLine (cart : List CartLine) (x : String) : Bool :=
  cart.any (fun item => item.menuItemId == x)

/-- The identifier resolves against the loaded menu. -/
def resolves (menu : List MenuItem) (x : String) : Bool :=
  (menu.find? (fun item => item.id == x)).isSome

/-- Reference counter for an identifier, following the specification's words:
`+1` on an add that resolves, unchanged on an add that does not, `-1` but not
below `0` on a remove. -/
def referenceCount (menu : List MenuItem) (x : String) : List CartOp → Nat :=
  List.foldl
    (fun n op =>
      match op with
      | CartOp.add y => if y = x ∧ resolves menu x = true then n + 1 else n
      | CartOp.remove y => if y = x then n - 1 else n)
    0

/-! ## Kitchen display: data model -/

/-- An element of the `items` array of an order. -/
structure OrderLine where
  name : String
  quantity : Nat
  deriving DecidableEq, Repr

/-- An Order record `{ id, timestamp, items }` with a numeric timestamp
(milliseconds since the epoch). -/
structure Order where
  id : String
  timestamp : Int
  items : List OrderLine
  deriving DecidableEq, Repr

/-- A value returned by `JSON.parse(event.data)`, as far as the display reads
it: JSON `null`, or an object with an `id`, a numeric `timestamp` and, when
present, an `items` array. -/
inductive OrderValue where
  | null
  | object (id : String) (timestamp : Int) (items : Option (List OrderLine))
  deriving DecidableEq, Repr

/-- The value a well-formed Order record parses to. -/
def Order.toValue (o : Order) : OrderValue :=
  OrderValue.object o.id o.timestamp (some o.items)

/-- An exception thrown while a handler runs. -/
inductive JsError where
  | syntaxError
  | typeError
  deriving DecidableEq, Repr

/-- A card appended to the orders container by `createOrderCard`;
`orderTime` is the timestamp handed to `formatTimestamp`. -/
structure OrderCard where
  id : String
  newOrder : Bool
  orderIdText : String
  orderTime : Int
  items : List OrderLine
  deriving DecidableEq, Repr

/-- What the orders container holds. -/
inductive OrdersView where
  | unset
  | waiting
  | cards (cs : List OrderCard)
  deriving DecidableEq, Repr

/-- The callback of a pending `setTimeout`. -/
inductive TimerAction where
  | reconnect
  | scrollToNewestOrder
  | removeNewOrderClass (cardId : String)
  deriving DecidableEq, Repr

/-- A pending `setTimeout` with its delay in milliseconds. -/
structure Timer where
  action : TimerAction
  delay : Nat
  deriving DecidableEq, Repr

/-- The `readyState` of an `EventSource`. -/
inductive ReadyState where
  | connecting
  | opened
  | closed
  deriving DecidableEq, Repr

/-- The values of `connectionStatus`. -/
inductive ConnectionStatus where
  | connected
  | disconnected
  deriving DecidableEq, Repr

/-- The module state of `kitchen.js`, the DOM properties it writes, the
`EventSource` objects created so far (by creation index) and the pending
timers. -/
structure KitchenState where
  orders : List OrderValue
  eventSource : Option Nat
  connectionStatus : ConnectionStatus
  ordersView : OrdersView
  indicatorDisconnected : Bool
  statusText : String
  sources : List ReadyState
  timers : List Timer
  consoleErrors : List JsError
  deriving DecidableEq, Repr

/-- The module state when the script is loaded; `indicator` and `text` are
what the page markup gives the status indicator. -/
def KitchenState.loaded (indicator : Bool) (text : String) : KitchenState :=
  { orders := []
    eventSource := none
    connectionStatus := ConnectionStatus.disconnected
    ordersView := OrdersView.unset
    indicatorDisconnected := indicator
    statusText := text
    sources := []
    timers := []
    consoleErrors := [] }

/-! ## Kitchen display: order list -/

/-- The comparator `(a, b) => a.timestamp - b.timestamp`; reading a property
of `null` throws. -/
def compareTimestamps : OrderValue → OrderValue → Except JsError Int
  | OrderValue.object _ ta _, OrderValue.object _ tb _ => Except.ok (ta - tb)
  | _, _ => Except.error JsError.typeError

/-- Insertion of `x` into a sorted array, after every element it does not
precede. -/
def insertSorted (x : OrderValue) : List OrderValue → Except JsError (List OrderValue)
  | [] => Except.ok [x]
  | y :: ys =>
    match compareTimestamps x y with
    | Except.error e => Except.error e
    | Except.ok c =>
      if c < 0 then Except.ok (x :: y :: ys)
      else
        match insertSorted x ys with
        | Except.error e => Except.error e
        | Except.ok zs => Except.ok (y :: zs)

/-- `Array.prototype.sort` with the comparator above: a stable sort, here by
insertion from the left; an exception of the comparator ends it. -/
def arraySort (xs : List OrderValue) : Except JsError (List OrderValue) :=
  xs.foldlM (fun sorted x => insertSorted x sorted) []

/-- Model of `createOrderCard`: the timers it sets and the card, or the
exception thrown. -/
def createOrderCard (order : OrderValue) (isNewest : Bool) :
    List Timer × Except JsError OrderCard :=
  match order with
  | OrderValue.null => ([], Except.error JsError.typeError)
  | OrderValue.object id timestamp items =>
    let timers : List Timer :=
      if isNewest then
        [{ action := TimerAction.removeNewOrderClass ("order-" ++ id), delay := 2000 }]
      else []
    match items with
    | none => (timers, Except.error JsError.typeError)
    | some lines =>
      (timers,
        Except.ok
          { id := "order-" ++ id
            newOrder := isNewest
            orderIdText := id
            orderTime := timestamp
            items := lines })

/-- The `forEach` of `renderOrders` from position `index` on, over the rest of
the array; `len` is `orders.length`. -/
def renderFrom (len : Nat) :
    Nat → List OrderValue → List OrderCard → List Timer →
      List OrderCard × List Timer × Option JsError
  | _, [], cards, timers => (cards, timers, none)
  | index, order :: rest, cards, timers =>
    match createOrderCard order (decide (index = len - 1)) with
    | (ts, Except.ok card) => renderFrom len (index + 1) rest (cards ++ [card]) (timers ++ ts)
    | (ts, Except.error e) => (cards, timers ++ ts, some e)

/-- Model of `renderOrders`, with the exception that ended it, if any. -/
def renderOrders (s : KitchenState) : KitchenState × Option JsError :=
  if s.orders.length = 0 then ({ s with ordersView := OrdersView.waiting }, none)
  else
    match renderFrom s.orders.length 0 s.orders [] s.timers with
    | (cards, timers, err) =>
      ({ s with ordersView := OrdersView.cards cards, timers := timers }, err)

/-- Model of `addOrderToDisplay`, with the exception that ended it, if any. -/
def addOrderToDisplay (s : KitchenState) (order : OrderValue) : KitchenState × Option JsError :=
  let pushed : KitchenState := { s with orders := s.orders ++ [order] }
  match arraySort pushed.orders with
  | Except.error e => (pushed, some e)
  | Except.ok sorted =>
    match renderOrders { pushed with orders := sorted } with
    | (rendered, some e) => (rendered, some e)
    | (rendered, none) =>
      ({ rendered with
          timers := rendered.timers ++
            [{ action := TimerAction.scrollToNewestOrder, delay := 100 }] },
        none)

/-- Model of the `onmessage` handler; `data` is `none` when `event.data` is
not JSON text (`JSON.parse` throws) and the parsed value otherwise. -/
def onmessage (s : KitchenState) (data : Option OrderValue) : KitchenState :=
  match data with
  | none => { s with consoleErrors := s.consoleErrors ++ [JsError.syntaxError] }
  | some order =>
    match addOrderToDisplay s order with
    | (t, none) => t
    | (t, some e) => { t with consoleErrors := t.consoleErrors ++ [e] }

/-! ## Kitchen display: stream client -/

/-- Effect of `close()` on the source the variable `eventSource` refers to. -/
def closeCurrent (s : KitchenState) : KitchenState :=
  match s.eventSource with
  | some i => { s with sources := s.sources.set i ReadyState.closed }
  | none => s

/-- Model of `updateConnectionStatus`. -/
def updateConnectionStatus (s : KitchenState) (status : ConnectionStatus) : KitchenState :=
  match status with
  | ConnectionStatus.connected =>
    { s with
      connectionStatus := status
      indicatorDisconnected := false
      statusText := "Connected" }
  | ConnectionStatus.disconnected =>
    { s with
      connectionStatus := status
      indicatorDisconnected := true
      statusText := "Disconnected" }

/-- Model of `connectToOrderStream`: the existing source is closed, a new one
is created and assigned to `eventSource` (the constructor does not throw for
the constant URL). -/
def connectToOrderStream (s : KitchenState) : KitchenState :=
  let c := closeCurrent s
  { c with
    sources := c.sources ++ [ReadyState.connecting]
    eventSource := some c.sources.length }

/-- Model of the `onopen` handler. -/
def onopen (s : KitchenState) : KitchenState :=
  updateConnectionStatus s ConnectionStatus.connected

/-- Model of the `onerror` handler. -/
def onerror (s : KitchenState) : KitchenState :=
  let c := closeCurrent (updateConnectionStatus s ConnectionStatus.disconnected)
  { c with timers := c.timers ++ [{ action := TimerAction.reconnect, delay := 5000 }] }

/-- Effect of a timer callback. Scrolling and the removal of a style class
change nothing that the state records. -/
def runTimer (s : KitchenState) : TimerAction → KitchenState
  | TimerAction.reconnect => connectToOrderStream s
  | TimerAction.scrollToNewestOrder => s
  | TimerAction.removeNewOrderClass _ => s

/-- The state after the page has loaded: `connectToOrderStream` has run once. -/
def KitchenState.init (indicator : Bool) (text : String) : KitchenState :=
  connectToOrderStream (KitchenState.loaded indicator text)

/-- An error signal on source `i`: the browser leaves the source connecting
again, or closed when the failure is fatal, and runs the `onerror` handler. -/
def signalError (s : KitchenState) (i : Nat) (fatal : Bool) : KitchenState :=
  onerror
    { s with
      sources :=
        s.sources.set i (if fatal then ReadyState.closed else ReadyState.connecting) }

/-- The pending timer at position `k` fires: it is no longer pending and its
callback runs. -/
def fireTimer (s : KitchenState) (k : Nat) (action : TimerAction) : KitchenState :=
  runTimer { s with timers := s.timers.eraseIdx k } action

/-- The step relation of the kitchen display. A source that is not closed can
signal `open`, deliver a message once open, or signal an error; a closed
source signals nothing. A pending timer can fire. -/
inductive KitchenStep : KitchenState → KitchenState → Prop where
  | openSignal (s : KitchenState) (i : Nat) (h : s.sources[i]? = some ReadyState.connecting) :
    KitchenStep s (onopen { s with sources := s.sources.set i ReadyState.opened })
  | message (s : KitchenState) (i : Nat) (data : Option OrderValue)
      (h : s.sources[i]? = some ReadyState.opened) :
    KitchenStep s (onmessage s data)
  | errorSignal (s : KitchenState) (i : Nat) (fatal : Bool) (r : ReadyState)
      (h : s.sources[i]? = some r) (hr : r ≠ ReadyState.closed) :
    KitchenStep s (signalError s i fatal)
  | timerFired (s : KitchenState) (k : Nat) (t : Timer) (h : s.timers[k]? = some t) :
    KitchenStep s (fireTimer s k t.action)

/-- States reachable from the state after page load. -/
inductive KitchenReachable (indicator : Bool) (text : String) : KitchenState → Prop where
  | start : KitchenReachable indicator text (KitchenState.init indicator text)
  | step {s t : KitchenState} :
    KitchenReachable indicator text s → KitchenStep s t → KitchenReachable indicator text t

/-- Number of sources that are not closed. -/
def openSources (s : KitchenState) : Nat :=
  (s.sources.filter (fun r => decide (r ≠ ReadyState.closed))).length

/-- Number of pending reconnection timers. -/
def pendingReconnects (s : KitchenState) : Nat :=
  (s.timers.filter (fun t => decide (t.action = TimerAction.reconnect))).length

/-- Effect of a sequence of received Order records handed one by one to
`addOrderToDisplay`. -/
def receiveOrders (s : KitchenState) (received : List Order) : KitchenState :=
  received.foldl (fun st o => (addOrderToDisplay st o.toValue).1) s

/-- The timestamps of a list of order values (`null` has none). -/
def timestampsOf : List OrderValue → List Int
  | [] => []
  | OrderValue.null :: rest => timestampsOf rest
  | OrderValue.object _ t _ :: rest => t :: timestampsOf rest

/-- The cards shown, if any. -/
def shownCards (s : KitchenState) : List OrderCard :=
  match s.ordersView with
  | OrdersView.cards cs => cs
  | _ => []

/-! ## Recursive forms of the cart updates (used in proofs) -/

/-- The cart after an add that resolved to `m`: the first line of `x` gets one
more unit, or a line of one unit is appended. -/
def addLine (m : MenuItem) (x : String) : List CartLine → List CartLine
  | [] => [{ menuItemId := m.id, name := m.name, price := m.price, quantity := 1 }]
  | l :: ls =>
    if l.menuItemId == x then { l with quantity := l.quantity + 1 } :: ls
    else l :: addLine m x ls

/-- The cart after a remove: the first line of `x` loses one unit, and goes
when it has no more than one. -/
def removeLine (x : String) : List CartLine → List CartLine
  | [] => []
  | l :: ls =>
    if l.menuItemId == x then
      (if l.quantity > 1 then { l with quantity := l.quantity - 1 } :: ls else ls)
    else l :: removeLine x ls

/-- The cart invariant: every line has at least one unit and no two lines
share an identifier. -/
def CartInvariant (cart : List CartLine) : Prop :=
  (∀ l ∈ cart, 1 ≤ l.quantity) ∧ (cart.map (fun l => l.menuItemId)).Nodup

/-! ## Sample data for the concrete instances -/

/-- A menu of two juices whose prices are the binary64 values of `0.1` and `0.2`. -/
def sampleMenu : List MenuItem :=
  [ { id := "A", name := "Apple", description := "", category := "juice",
      price := JsNum.fin (3602879701896397 / 36028797018963968), imageUrl := "" },
    { id := "B", name := "Berry", description := "", category := "juice",
      price := JsNum.fin (3602879701896397 / 18014398509481984), imageUrl := "" } ]

/-- The page state right after the sample menu is loaded. -/
def sampleStart : MenuState := MenuState.init sampleMenu true "0.00"

/-- A menu of two juices with whole-number prices. -/
def wholeMenu : List MenuItem :=
  [ { id := "A", name := "Apple", description := "", category := "juice",
      price := JsNum.fin 3, imageUrl := "" },
    { id := "B", name := "Berry", description := "", category := "juice",
      price := JsNum.fin 5, imageUrl := "" } ]

/-- The exact sum over the lines of `unit price × quantity`, when every price
is finite. -/
def exactTotal : List CartLine → Option ℚ
  | [] => some 0
  | l :: ls =>
    match l.price, exactTotal ls with
    | JsNum.fin p, some t => some (p * (l.quantity : ℚ) + t)
    | _, _ => none

/-- Every unit price of the cart is a whole number. -/
def WholePrices (cart : List CartLine) : Prop :=
  ∀ l ∈ cart, ∃ n : Nat, l.price = JsNum.fin (n : ℚ)

/-! ## Recursive forms of the order list updates (used in proofs) -/

/-- Insertion of a well-formed order into a list of well-formed orders, as
`insertSorted` does it on their values. -/
def insertOrder (o : Order) : List Order → List Order
  | [] => [o]
  | y :: ys => if o.timestamp - y.timestamp < 0 then o :: y :: ys else y :: insertOrder o ys

/-- Insertion sort of well-formed orders, as `arraySort` does it on their values. -/
def sortOrders (os : List Order) : List Order :=
  os.foldl (fun sorted o => insertOrder o sorted) []

/-- The card `createOrderCard` builds for a well-formed order. -/
def cardOf (o : Order) (isNewest : Bool) : OrderCard :=
  { id := "order-" ++ o.id
    newOrder := isNewest
    orderIdText := o.id
    orderTime := o.timestamp
    items := o.items }

/-- The cards `renderFrom` appends for well-formed orders. -/
def cardsFrom (len : Nat) : Nat → List Order → List OrderCard
  | _, [] => []
  | index, o :: rest => cardOf o (decide (index = len - 1)) :: cardsFrom len (index + 1) rest

/-- Number of reconnection timers in a list of timers. -/
def reconnectCount (ts : List Timer) : Nat :=
  (ts.filter (fun t => decide (t.action = TimerAction.reconnect))).length

/-- Invariant of the stream client: the variable `eventSource` refers to the
source created last, every older source is closed, and either one source is
not closed and no reconnection is pending, or none is and one reconnection is
pending. -/
def StreamInvariant (s : KitchenState) : Prop :=
  (∃ (older : List ReadyState) (r : ReadyState),
      s.sources = older ++ [r] ∧ (∀ x ∈ older, x = ReadyState.closed) ∧
        s.eventSource = some older.length) ∧
    openSources s + pendingReconnects s = 1

/-- The kitchen display after page load and the `open` signal of its first
source: the status shown is connected. -/
def connectedKitchen : KitchenState :=
  onopen
    { KitchenState.init false "" with
      sources := (KitchenState.init false "").sources.set 0 ReadyState.opened }

/-! # Theorems -/

/-! ## Cart: the updates in recursive form -/

@[simp] theorem updateOrderDisplay_currentOrder (s : MenuState) :
    (updateOrderDisplay s).currentOrder = s.currentOrder := by
  unfold updateOrderDisplay
  split <;> rfl

@[simp] theorem updateOrderDisplay_menuItems (s : MenuState) :
    (updateOrderDisplay s).menuItems = s.menuItems := by
  unfold updateOrderDisplay
  split <;> rfl

@[simp] theorem updateOrderDisplay_isSubmitting (s : MenuState) :
    (updateOrderDisplay s).isSubmitting = s.isSubmitting := by
  unfold updateOrderDisplay
  split <;> rfl

theorem findIdx_set_eq_addLine (m : MenuItem) (x : String) (cart : List CartLine) :
    (match cart.findIdx? (fun item => item.menuItemId == x) with
      | some i =>
        match cart[i]? with
        | some e => cart.set i { e with quantity := e.quantity + 1 }
        | none => cart
      | none =>
        cart ++ [{ menuItemId := m.id, name := m.name, price := m.price, quantity := 1 }])
      = addLine m x cart := by
  induction cart with
  | nil => simp [addLine]
  | cons l ls ih =>
    by_cases h : l.menuItemId = x
    · simp [addLine, h]
    · simp only [List.findIdx?_cons, addLine, beq_iff_eq, h, if_false,
        List.findIdx?_start_succ, ← ih]
      cases hf : List.findIdx? (fun item => item.menuItemId == x) ls with
      | none => simp
      | some i =>
        simp only [Option.map_some', Nat.zero_add, List.getElem?_cons_succ]
        cases ls[i]? <;> simp

theorem findIdx_set_eq_removeLine (x : String) (cart : List CartLine) :
    (match cart.findIdx? (fun item => item.menuItemId == x) with
      | some i =>
        match cart[i]? with
        | some e =>
          if e.quantity > 1 then cart.set i { e with quantity := e.quantity - 1 }
          else cart.eraseIdx i
        | none => cart
      | none => cart)
      = removeLine x cart := by
  induction cart with
  | nil => simp [removeLine]
  | cons l ls ih =>
    by_cases h : l.menuItemId = x
    · simp [removeLine, h]
    · simp only [List.findIdx?_cons, removeLine, beq_iff_eq, h, if_false,
        List.findIdx?_start_succ, ← ih]
      cases hf : List.findIdx? (fun item => item.menuItemId == x) ls with
      | none => simp
      | some i =>
        simp only [Option.map_some', Nat.zero_add, List.getElem?_cons_succ]
        cases ls[i]? with
        | none => simp
        | some e => by_cases hq : e.quantity > 1 <;> simp [hq]

theorem addToOrder_currentOrder (s : MenuState) (x : String) :
    (addToOrder s x).currentOrder =
      match s.menuItems.find? (fun item => item.id == x) with
      | none => s.currentOrder
      | some m => addLine m x s.currentOrder := by
  unfold addToOrder
  cases hm : s.menuItems.find? (fun item => item.id == x) with
  | none => rfl
  | some m =>
    simp only [← findIdx_set_eq_addLine]
    cases hf : List.findIdx? (fun item => item.menuItemId == x) s.currentOrder with
    | none => simp
    | some i => simp only []; cases s.currentOrder[i]? <;> simp

theorem removeFromOrder_currentOrder (s : MenuState) (x : String) :
    (removeFromOrder s x).currentOrder = removeLine x s.currentOrder := by
  unfold removeFromOrder
  rw [← findIdx_set_eq_removeLine]
  cases hf : List.findIdx? (fun item => item.menuItemId == x) s.currentOrder with
  | none => simp
  | some i =>
    simp only []
    cases s.currentOrder[i]? with
    | none => simp
    | some e => by_cases hq : e.quantity > 1 <;> simp [hq]

@[simp] theorem addToOrder_menuItems (s : MenuState) (x : String) :
    (addToOrder s x).menuItems = s.menuItems := by
  unfold addToOrder
  split
  · rfl
  · split
    · split <;> simp
    · simp

@[simp] theorem removeFromOrder_menuItems (s : MenuState) (x : String) :
    (removeFromOrder s x).menuItems = s.menuItems := by
  unfold removeFromOrder
  split
  · split
    · split <;> simp
    · simp
  · simp

/-! ## Cart: invariant and quantities -/

theorem find_id_eq {menu : List MenuItem} {x : String} {m : MenuItem}
    (h : menu.find? (fun item => item.id == x) = some m) : m.id = x := by
  have := List.find?_some h
  simpa using this

theorem mem_addLine {m : MenuItem} {x : String} {cart : List CartLine} {l : CartLine}
    (h : l ∈ addLine m x cart) :
    l.menuItemId = m.id ∨ l.menuItemId = x ∨ l ∈ cart := by
  induction cart with
  | nil =>
    simp only [addLine, List.mem_singleton] at h
    left; rw [h]
  | cons c cs ih =>
    simp only [addLine] at h
    by_cases hc : c.menuItemId = x
    · simp only [hc, beq_self_eq_true, if_true, List.mem_cons] at h
      rcases h with h | h
      · right; left; rw [h]
      · right; right; exact List.mem_cons_of_mem _ h
    · simp only [beq_iff_eq, hc, if_false, List.mem_cons] at h
      rcases h with h | h
      · right; right; rw [h]; exact List.mem_cons_self _ _
      · rcases ih h with h1 | h1 | h1
        · left; exact h1
        · right; left; exact h1
        · right; right; exact List.mem_cons_of_mem _ h1

theorem addLine_quantity_pos {m : MenuItem} {x : String} {cart : List CartLine}
    (h : ∀ l ∈ cart, 1 ≤ l.quantity) : ∀ l ∈ addLine m x cart, 1 ≤ l.quantity := by
  induction cart with
  | nil => intro l hl; simp only [addLine, List.mem_singleton] at hl; rw [hl]
  | cons c cs ih =>
    intro l hl
    simp only [addLine] at hl
    by_cases hc : c.menuItemId = x
    · simp only [hc, beq_self_eq_true, if_true, List.mem_cons] at hl
      rcases hl with hl | hl
      · rw [hl]; simp
      · exact h l (List.mem_cons_of_mem _ hl)
    · simp only [beq_iff_eq, hc, if_false, List.mem_cons] at hl
      rcases hl with hl | hl
      · rw [hl]; exact h c (List.mem_cons_self _ _)
      · exact ih (fun l hl => h l (List.mem_cons_of_mem _ hl)) l hl

theorem addLine_ids_mem {m : MenuItem} {x : String} (hm : m.id = x) {cart : List CartLine}
    {y : String} (h : y ∈ (addLine m x cart).map (fun l => l.menuItemId)) :
    y = x ∨ y ∈ cart.map (fun l => l.menuItemId) := by
  rcases List.mem_map.1 h with ⟨l, hl, rfl⟩
  rcases mem_addLine hl with h1 | h1 | h1
  · left; rw [h1, hm]
  · left; exact h1
  · right; exact List.mem_map.2 ⟨l, h1, rfl⟩

theorem addLine_nodup {m : MenuItem} {x : String} (hm : m.id = x) {cart : List CartLine}
    (h : (cart.map (fun l => l.menuItemId)).Nodup) :
    ((addLine m x cart).map (fun l => l.menuItemId)).Nodup := by
  induction cart with
  | nil => simp [addLine]
  | cons c cs ih =>
    simp only [List.map_cons, List.nodup_cons] at h
    simp only [addLine]
    by_cases hc : c.menuItemId = x
    · simp only [hc, beq_self_eq_true, if_true, List.map_cons, List.nodup_cons]
      rw [← hc]; exact h
    · simp only [beq_iff_eq, hc, if_false, List.map_cons, List.nodup_cons]
      refine ⟨fun hmem => ?_, ih h.2⟩
      rcases addLine_ids_mem hm hmem with h1 | h1
      · exact hc h1
      · exact h.1 h1

theorem addLine_invariant {m : MenuItem} {x : String} (hm : m.id = x) {cart : List CartLine}
    (h : CartInvariant cart) : CartInvariant (addLine m x cart) :=
  ⟨addLine_quantity_pos h.1, addLine_nodup hm h.2⟩

theorem removeLine_sublist (x : String) (cart : List CartLine) :
    ((removeLine x cart).map (fun l => l.menuItemId)).Sublist
      (cart.map (fun l => l.menuItemId)) := by
  induction cart with
  | nil => simp [removeLine]
  | cons c cs ih =>
    simp only [removeLine]
    by_cases hc : c.menuItemId = x
    · by_cases hq : c.quantity > 1
      · simp [hc, hq]
      · simp [hc, hq]
    · simp only [beq_iff_eq, hc, if_false, List.map_cons]
      exact ih.cons₂ _

theorem removeLine_quantity_pos {x : String} {cart : List CartLine}
    (h : ∀ l ∈ cart, 1 ≤ l.quantity) : ∀ l ∈ removeLine x cart, 1 ≤ l.quantity := by
  induction cart with
  | nil => intro l hl; simp [removeLine] at hl
  | cons c cs ih =>
    intro l hl
    have hcs : ∀ l ∈ cs, 1 ≤ l.quantity := fun l hl => h l (List.mem_cons_of_mem _ hl)
    simp only [removeLine] at hl
    by_cases hc : c.menuItemId = x
    · by_cases hq : c.quantity > 1
      · simp only [hc, beq_self_eq_true, if_true, hq, List.mem_cons] at hl
        rcases hl with hl | hl
        · rw [hl]; simp only; omega
        · exact hcs l hl
      · simp only [hc, beq_self_eq_true, if_true, hq, if_false] at hl
        exact hcs l hl
    · simp only [beq_iff_eq, hc, if_false, List.mem_cons] at hl
      rcases hl with hl | hl
      · rw [hl]; exact h c (List.mem_cons_self _ _)
      · exact ih hcs l hl

theorem removeLine_invariant {x : String} {cart : List CartLine}
    (h : CartInvariant cart) : CartInvariant (removeLine x cart) :=
  ⟨removeLine_quantity_pos h.1, h.2.sublist (removeLine_sublist x cart)⟩

theorem applyCartOp_invariant (s : MenuState) (op : CartOp)
    (h : CartInvariant s.currentOrder) : CartInvariant (applyCartOp s op).currentOrder := by
  cases op with
  | add x =>
    simp only [applyCartOp, addToOrder_currentOrder]
    cases hm : s.menuItems.find? (fun item => item.id == x) with
    | none => exact h
    | some m => exact addLine_invariant (find_id_eq hm) h
  | remove x =>
    simp only [applyCartOp, removeFromOrder_currentOrder]
    exact removeLine_invariant h

theorem runCartOps_invariant (ops : List CartOp) (s : MenuState)
    (h : CartInvariant s.currentOrder) : CartInvariant (runCartOps s ops).currentOrder := by
  induction ops generalizing s with
  | nil => exact h
  | cons op ops ih => exact ih _ (applyCartOp_invariant s op h)

theorem runCartOps_append (s : MenuState) (ops : List CartOp) (op : CartOp) :
    runCartOps s (ops ++ [op]) = applyCartOp (runCartOps s ops) op := by
  simp [runCartOps, List.foldl_append]

theorem runCartOps_menuItems (ops : List CartOp) (s : MenuState) :
    (runCartOps s ops).menuItems = s.menuItems := by
  induction ops generalizing s with
  | nil => rfl
  | cons op ops ih =>
    have : runCartOps s (op :: ops) = runCartOps (applyCartOp s op) ops := rfl
    rw [this, ih]
    cases op <;> simp [applyCartOp]

theorem quantityOf_cons (c : CartLine) (cs : List CartLine) (y : String) :
    quantityOf (c :: cs) y = if c.menuItemId = y then c.quantity else quantityOf cs y := by
  by_cases h : c.menuItemId = y
  · simp [quantityOf, List.find?, h]
  · have hb : (c.menuItemId == y) = false := by simpa using h
    simp [quantityOf, List.find?, hb, h]

theorem quantityOf_addLine {m : MenuItem} {x : String} (hm : m.id = x)
    (cart : List CartLine) (y : String) :
    quantityOf (addLine m x cart) y =
      if y = x then quantityOf cart x + 1 else quantityOf cart y := by
  induction cart with
  | nil =>
    by_cases hy : y = x
    · subst hy; simp [addLine, quantityOf, List.find?, hm]
    · have hb : (m.id == y) = false := by
        simp only [beq_eq_false_iff_ne, ne_eq]
        exact fun h => hy (by rw [← h, hm])
      simp [addLine, quantityOf, List.find?, hb, hy]
  | cons c cs ih =>
    by_cases hc : c.menuItemId = x
    · by_cases hy : y = x
      · subst hy; simp [addLine, quantityOf_cons, hc]
      · have : ¬ x = y := fun h => hy h.symm
        simp [addLine, quantityOf_cons, hc, hy, this]
    · simp only [addLine, beq_iff_eq, hc, if_false, quantityOf_cons, ih]
      by_cases hy : y = x
      · subst hy; simp [hc]
      · simp [hy]

theorem quantityOf_eq_zero_of_not_mem {cart : List CartLine} {y : String}
    (h : y ∉ cart.map (fun l => l.menuItemId)) : quantityOf cart y = 0 := by
  induction cart with
  | nil => rfl
  | cons c cs ih =>
    simp only [List.map_cons, List.mem_cons, not_or] at h
    rw [quantityOf_cons, if_neg (fun hc => h.1 hc.symm)]
    exact ih h.2

theorem quantityOf_removeLine {x : String} {cart : List CartLine} (h : CartInvariant cart)
    (y : String) :
    quantityOf (removeLine x cart) y =
      if y = x then quantityOf cart x - 1 else quantityOf cart y := by
  induction cart with
  | nil => simp [removeLine, quantityOf]
  | cons c cs ih =>
    have hcs : CartInvariant cs :=
      ⟨fun l hl => h.1 l (List.mem_cons_of_mem _ hl), (List.nodup_cons.1 h.2).2⟩
    have hnot : c.menuItemId ∉ cs.map (fun l => l.menuItemId) := (List.nodup_cons.1 h.2).1
    have hq1 : 1 ≤ c.quantity := h.1 c (List.mem_cons_self _ _)
    by_cases hc : c.menuItemId = x
    · by_cases hq : c.quantity > 1
      · by_cases hy : y = x
        · subst hy; simp [removeLine, quantityOf_cons, hc, hq]
        · have : ¬ x = y := fun h => hy h.symm
          simp [removeLine, quantityOf_cons, hc, hq, hy, this]
      · have hone : c.quantity = 1 := by omega
        by_cases hy : y = x
        · subst hy
          rw [hc] at hnot
          simp [removeLine, quantityOf_cons, hc, hq, hone,
            quantityOf_eq_zero_of_not_mem hnot]
        · have : ¬ x = y := fun h => hy h.symm
          simp [removeLine, quantityOf_cons, hc, hq, hy, this]
    · simp only [removeLine, beq_iff_eq, hc, if_false, quantityOf_cons, ih hcs]
      by_cases hy : y = x
      · subst hy; simp [hc]
      · simp [hy]

theorem hasLine_iff_mem (cart : List CartLine) (x : String) :
    hasLine cart x = true ↔ x ∈ cart.map (fun l => l.menuItemId) := by
  simp only [hasLine, List.any_eq_true, beq_iff_eq, List.mem_map]

theorem hasLine_iff_quantity_pos {cart : List CartLine} (h : ∀ l ∈ cart, 1 ≤ l.quantity)
    (x : String) : hasLine cart x = true ↔ 0 < quantityOf cart x := by
  induction cart with
  | nil => simp [hasLine, quantityOf]
  | cons c cs ih =>
    have hcs : ∀ l ∈ cs, 1 ≤ l.quantity := fun l hl => h l (List.mem_cons_of_mem _ hl)
    have hq1 : 1 ≤ c.quantity := h c (List.mem_cons_self _ _)
    have ih2 := ih hcs
    rw [quantityOf_cons]
    by_cases hc : c.menuItemId = x
    · simp only [hc, if_true]
      simp only [hasLine, List.any_cons, hc, beq_self_eq_true, Bool.true_or, true_iff]
      omega
    · simp only [hc, if_false, ← ih2]
      simp [hasLine, hc]

theorem removeLine_of_not_hasLine {cart : List CartLine} {x : String}
    (h : hasLine cart x = false) : removeLine x cart = cart := by
  induction cart with
  | nil => rfl
  | cons c cs ih =>
    simp only [hasLine, List.any_cons, Bool.or_eq_false_iff] at h
    have hc : (c.menuItemId == x) = false := h.1
    simp only [removeLine, hc]
    simp only [Bool.false_eq_true, if_false]
    rw [ih h.2]

theorem referenceCount_append (menu : List MenuItem) (x : String) (ops : List CartOp)
    (op : CartOp) :
    referenceCount menu x (ops ++ [op]) =
      match op with
      | CartOp.add y =>
        if y = x ∧ resolves menu x = true then referenceCount menu x ops + 1
        else referenceCount menu x ops
      | CartOp.remove y =>
        if y = x then referenceCount menu x ops - 1 else referenceCount menu x ops := by
  simp only [referenceCount, List.foldl_append, List.foldl_cons, List.foldl_nil]

theorem quantityOf_applyCartOp (s : MenuState) (op : CartOp) (x : String)
    (h : CartInvariant s.currentOrder) :
    quantityOf (applyCartOp s op).currentOrder x =
      match op with
      | CartOp.add y =>
        if y = x ∧ resolves s.menuItems x = true then quantityOf s.currentOrder x + 1
        else quantityOf s.currentOrder x
      | CartOp.remove y =>
        if y = x then quantityOf s.currentOrder x - 1 else quantityOf s.currentOrder x := by
  cases op with
  | add y =>
    simp only [applyCartOp, addToOrder_currentOrder]
    cases hm : s.menuItems.find? (fun item => item.id == y) with
    | none =>
      have : ¬ (y = x ∧ resolves s.menuItems x = true) := by
        rintro ⟨rfl, hr⟩
        simp [resolves, hm] at hr
      simp only [this, if_false]
    | some m =>
      simp only [quantityOf_addLine (find_id_eq hm)]
      by_cases hy : y = x
      · subst hy
        simp [resolves, hm]
      · have h1 : ¬ x = y := fun h => hy h.symm
        simp [hy, h1]
  | remove y =>
    simp only [applyCartOp, removeFromOrder_currentOrder, quantityOf_removeLine h]
    by_cases hy : y = x
    · subst hy; simp
    · have h1 : ¬ x = y := fun h => hy h.symm
      simp [hy, h1]

theorem init_invariant (menu : List MenuItem) (btnDisabled : Bool) (totalText : String) :
    CartInvariant (MenuState.init menu btnDisabled totalText).currentOrder := by
  simp [MenuState.init, CartInvariant]

theorem quantityOf_runCartOps (menu : List MenuItem) (btnDisabled : Bool) (totalText : String)
    (ops : List CartOp) (x : String) :
    quantityOf (runCartOps (MenuState.init menu btnDisabled totalText) ops).currentOrder x =
      referenceCount menu x ops := by
  induction ops using List.reverseRecOn with
  | nil => rfl
  | append_singleton ops op ih =>
    rw [runCartOps_append, referenceCount_append,
      quantityOf_applyCartOp _ _ _ (runCartOps_invariant ops _ (init_invariant _ _ _)),
      runCartOps_menuItems, ih]
    rfl

theorem cart_after_two_A_one_B (menu : List MenuItem) (btnDisabled : Bool)
    (totalText : String) (a b : MenuItem)
    (ha : menu.find? (fun item => item.id == "A") = some a)
    (hb : menu.find? (fun item => item.id == "B") = some b) :
    (runCartOps (MenuState.init menu btnDisabled totalText)
        [CartOp.add "A", CartOp.add "A", CartOp.add "B"]).currentOrder =
      [ { menuItemId := "A", name := a.name, price := a.price, quantity := 2 },
        { menuItemId := "B", name := b.name, price := b.price, quantity := 1 } ] := by
  have hida : a.id = "A" := find_id_eq ha
  have hidb : b.id = "B" := find_id_eq hb
  simp only [runCartOps, List.foldl_cons, List.foldl_nil, applyCartOp,
    addToOrder_currentOrder, addToOrder_menuItems, MenuState.init, ha, hb]
  simp [addLine, hida, hidb]

/-- C3: in every cart reachable from the empty cart by a finite sequence of
`addToOrder` and `removeFromOrder` calls, every line has quantity at least 1
and no two lines have the same `menuItemId`. -/
theorem cart_invariant_reachable (menu : List MenuItem) (btnDisabled : Bool)
    (totalText : String) (ops : List CartOp) :
    (∀ l ∈ (runCartOps (MenuState.init menu btnDisabled totalText) ops).currentOrder,
        1 ≤ l.quantity) ∧
      ((runCartOps (MenuState.init menu btnDisabled totalText) ops).currentOrder.map
        (fun l => l.menuItemId)).Nodup :=
  runCartOps_invariant ops _ (init_invariant menu btnDisabled totalText)

/-- C2: starting from the empty cart, after any sequence of `addToOrder` and
`removeFromOrder` calls the quantity of every identifier `x` in `currentOrder`
equals its reference counter, `x` has a line exactly when the counter is
positive, removing an identifier that has no line leaves the cart unchanged,
and `addToOrder("A")` twice then `addToOrder("B")` gives the lines of `A` with
quantity 2 and of `B` with quantity 1 (when both resolve in the menu). -/
theorem cart_quantity_eq_reference_counter (menu : List MenuItem) (btnDisabled : Bool)
    (totalText : String) (ops : List CartOp) (x : String) :
    quantityOf (runCartOps (MenuState.init menu btnDisabled totalText) ops).currentOrder x =
        referenceCount menu x ops ∧
      (hasLine (runCartOps (MenuState.init menu btnDisabled totalText) ops).currentOrder x = true ↔
        0 < referenceCount menu x ops) ∧
      (hasLine (runCartOps (MenuState.init menu btnDisabled totalText) ops).currentOrder x = false →
        (removeFromOrder (runCartOps (MenuState.init menu btnDisabled totalText) ops) x).currentOrder =
          (runCartOps (MenuState.init menu btnDisabled totalText) ops).currentOrder) ∧
      (∀ a b : MenuItem,
        menu.find? (fun item => item.id == "A") = some a →
        menu.find? (fun item => item.id == "B") = some b →
        (runCartOps (MenuState.init menu btnDisabled totalText)
            [CartOp.add "A", CartOp.add "A", CartOp.add "B"]).currentOrder =
          [ { menuItemId := "A", name := a.name, price := a.price, quantity := 2 },
            { menuItemId := "B", name := b.name, price := b.price, quantity := 1 } ]) := by
  have hinv := runCartOps_invariant ops _ (init_invariant menu btnDisabled totalText)
  refine ⟨quantityOf_runCartOps menu btnDisabled totalText ops x, ?_, ?_, ?_⟩
  · rw [hasLine_iff_quantity_pos hinv.1, quantityOf_runCartOps]
  · intro h
    rw [removeFromOrder_currentOrder, removeLine_of_not_hasLine h]
  · intro a b ha hb
    exact cart_after_two_A_one_B menu btnDisabled totalText a b ha hb

/-- Instance of C2 on the sample menu: quantities after three adds. -/
theorem cart_quantity_eq_reference_counter_witness :
    (runCartOps sampleStart [CartOp.add "A", CartOp.add "A", CartOp.add "B"]).currentOrder =
      [ { menuItemId := "A", name := "Apple",
          price := JsNum.fin (3602879701896397 / 36028797018963968), quantity := 2 },
        { menuItemId := "B", name := "Berry",
          price := JsNum.fin (3602879701896397 / 18014398509481984), quantity := 1 } ] :=
  (cart_quantity_eq_reference_counter sampleMenu true "0.00" [] "A").2.2.2
    { id := "A", name := "Apple", description := "", category := "juice",
      price := JsNum.fin (3602879701896397 / 36028797018963968), imageUrl := "" }
    { id := "B", name := "Berry", description := "", category := "juice",
      price := JsNum.fin (3602879701896397 / 18014398509481984), imageUrl := "" }
    rfl rfl

/-! ## Order submission -/

theorem pushUnits_eq (item : CartLine) (n : Nat) (orderItems : List OrderItemRecord) :
    pushUnits item n orderItems =
      orderItems ++ List.replicate n { menuItemId := item.menuItemId, name := item.name } := by
  induction n generalizing orderItems with
  | zero => simp [pushUnits]
  | succ n ih => simp [pushUnits, ih, List.replicate_succ]

theorem foldl_pushUnits_eq (cart : List CartLine) (orderItems : List OrderItemRecord) :
    cart.foldl (fun acc item => pushUnits item item.quantity acc) orderItems =
      orderItems ++ cart.flatMap (fun item =>
        List.replicate item.quantity { menuItemId := item.menuItemId, name := item.name }) := by
  induction cart generalizing orderItems with
  | nil => simp
  | cons c cs ih =>
    rw [List.foldl_cons, ih, pushUnits_eq, List.flatMap_cons, List.append_assoc]

theorem expandOrderItems_eq (cart : List CartLine) :
    expandOrderItems cart =
      cart.flatMap (fun item =>
        List.replicate item.quantity { menuItemId := item.menuItemId, name := item.name }) := by
  simp [expandOrderItems, foldl_pushUnits_eq]

theorem length_flatMap_replicate (cart : List CartLine) :
    (cart.flatMap (fun item =>
        List.replicate item.quantity
          ({ menuItemId := item.menuItemId, name := item.name } : OrderItemRecord))).length =
      (cart.map (fun item => item.quantity)).sum := by
  induction cart with
  | nil => rfl
  | cons c cs ih => simp [ih]

/-- C5: for a non-empty cart (and no submission in flight) the request that
`handlePlaceOrder` sends carries as `items` the concatenation, in cart line
order, of `quantity` copies of the record `{menuItemId, name}` of each line;
its length is the sum of the quantities, and every record names the menu item
of a cart line (a record has no other field). -/
theorem placeOrder_items_one_record_per_unit (s : MenuState) (hne : s.currentOrder ≠ [])
    (hidle : s.isSubmitting = false) :
    (handlePlaceOrderStart s).requests = s.requests ++
        [{ items := s.currentOrder.flatMap (fun item =>
            List.replicate item.quantity
              { menuItemId := item.menuItemId, name := item.name }) }] ∧
      (expandOrderItems s.currentOrder).length =
        (s.currentOrder.map (fun item => item.quantity)).sum ∧
      (∀ r ∈ expandOrderItems s.currentOrder,
        ∃ item ∈ s.currentOrder, r.menuItemId = item.menuItemId ∧ r.name = item.name) := by
  have hlen : ¬ s.currentOrder.length = 0 := by
    intro h; exact hne (List.length_eq_zero.1 h)
  refine ⟨?_, ?_, ?_⟩
  · simp [handlePlaceOrderStart, hidle, hlen, expandOrderItems_eq]
  · rw [expandOrderItems_eq, length_flatMap_replicate]
  · intro r hr
    rw [expandOrderItems_eq] at hr
    rcases List.mem_flatMap.1 hr with ⟨item, hitem, hrep⟩
    have := (List.mem_replicate.1 hrep).2
    exact ⟨item, hitem, by rw [this], by rw [this]⟩

/-- Instance of C5: a cart of 2 units of `A` yields two records of `A`. -/
theorem placeOrder_items_one_record_per_unit_witness :
    (handlePlaceOrderStart
        (runCartOps sampleStart [CartOp.add "A", CartOp.add "A"])).requests =
      [{ items := [{ menuItemId := "A", name := "Apple" },
                   { menuItemId := "A", name := "Apple" }] }] :=
  (placeOrder_items_one_record_per_unit
    (runCartOps sampleStart [CartOp.add "A", CartOp.add "A"]) (by decide) rfl).1.trans rfl

/-! ## Order submission: outcomes -/

theorem handlePlaceOrder_of_ready (s : MenuState) (hne : s.currentOrder ≠ [])
    (hidle : s.isSubmitting = false) (outcome : FetchOutcome) :
    handlePlaceOrder s outcome =
      handlePlaceOrderSettle
        { s with
          isSubmitting := true
          placeOrderBtnLoading := true
          placeOrderBtnDisabled := true
          requests := s.requests ++ [{ items := expandOrderItems s.currentOrder }] }
        outcome := by
  have hlen : ¬ s.currentOrder.length = 0 := by
    intro h; exact hne (List.length_eq_zero.1 h)
  simp [handlePlaceOrder, handlePlaceOrderStart, hidle, hlen]

theorem handlePlaceOrder_of_error (s : MenuState) (hne : s.currentOrder ≠ [])
    (hidle : s.isSubmitting = false) (outcome : FetchOutcome) (message : String)
    (h : placeOrderTry outcome = Except.error message) :
    (handlePlaceOrder s outcome).currentOrder = s.currentOrder ∧
      (handlePlaceOrder s outcome).isSubmitting = false ∧
      (handlePlaceOrder s outcome).alerts = s.alerts ++ [alertText message] := by
  rw [handlePlaceOrder_of_ready s hne hidle]
  simp [handlePlaceOrderSettle, h, placeOrderFinally]

theorem handlePlaceOrder_of_ok (s : MenuState) (hne : s.currentOrder ≠ [])
    (hidle : s.isSubmitting = false) (outcome : FetchOutcome) (orderId : Option String)
    (h : placeOrderTry outcome = Except.ok orderId) :
    (handlePlaceOrder s outcome).currentOrder = [] ∧
      (handlePlaceOrder s outcome).isSubmitting = false ∧
      (handlePlaceOrder s outcome).alerts = s.alerts := by
  rw [handlePlaceOrder_of_ready s hne hidle]
  simp [handlePlaceOrderSettle, h, placeOrderFinally, showConfirmationModal, updateOrderDisplay]

theorem placeOrderTry_rejected (message : String) :
    placeOrderTry (FetchOutcome.rejected message) = Except.error message := rfl

theorem placeOrderTry_not_ok (status : Nat) (body : ResponseBody)
    (h : responseOk status = false) :
    ∃ message, placeOrderTry (FetchOutcome.response status body) = Except.error message := by
  cases body <;> simp [placeOrderTry, h]

theorem placeOrderTry_ok_inv (outcome : FetchOutcome) (orderId : Option String)
    (h : placeOrderTry outcome = Except.ok orderId) :
    ∃ status error, outcome = FetchOutcome.response status (ResponseBody.object error orderId) ∧
      responseOk status = true := by
  cases outcome with
  | rejected message => simp [placeOrderTry] at h
  | response status body =>
    cases hs : responseOk status with
    | false => cases body <;> simp [placeOrderTry, hs] at h
    | true =>
      cases body with
      | unparseable m => simp [placeOrderTry, hs] at h
      | null m => simp [placeOrderTry, hs] at h
      | object error oid =>
        simp only [placeOrderTry, hs, Bool.not_true, Bool.false_eq_true, if_false,
          Except.ok.injEq] at h
        exact ⟨status, error, by rw [h], hs⟩

/-- C6: for a non-empty cart with no submission in flight, when the request
fails (the fetch is rejected, or the response is not a success, whatever its
body) `handlePlaceOrder` leaves `currentOrder` as it was and `isSubmitting`
false; `isSubmitting` is false after every outcome; and the cart changes only
on a success response. -/
theorem placeOrder_failure_keeps_cart (s : MenuState) (hne : s.currentOrder ≠ [])
    (hidle : s.isSubmitting = false) :
    (∀ message : String,
      (handlePlaceOrder s (FetchOutcome.rejected message)).currentOrder = s.currentOrder ∧
        (handlePlaceOrder s (FetchOutcome.rejected message)).isSubmitting = false) ∧
      (∀ (status : Nat) (body : ResponseBody), responseOk status = false →
        (handlePlaceOrder s (FetchOutcome.response status body)).currentOrder = s.currentOrder ∧
          (handlePlaceOrder s (FetchOutcome.response status body)).isSubmitting = false) ∧
      (∀ outcome : FetchOutcome, (handlePlaceOrder s outcome).isSubmitting = false) ∧
      (∀ outcome : FetchOutcome, (handlePlaceOrder s outcome).currentOrder ≠ s.currentOrder →
        (handlePlaceOrder s outcome).currentOrder = [] ∧
          ∃ status body, outcome = FetchOutcome.response status body ∧
            responseOk status = true) := by
  refine ⟨?_, ?_, ?_, ?_⟩
  · intro message
    have := handlePlaceOrder_of_error s hne hidle _ message (placeOrderTry_rejected message)
    exact ⟨this.1, this.2.1⟩
  · intro status body hs
    rcases placeOrderTry_not_ok status body hs with ⟨message, hm⟩
    have := handlePlaceOrder_of_error s hne hidle _ message hm
    exact ⟨this.1, this.2.1⟩
  · intro outcome
    cases h : placeOrderTry outcome with
    | error message => exact (handlePlaceOrder_of_error s hne hidle _ message h).2.1
    | ok orderId => exact (handlePlaceOrder_of_ok s hne hidle _ orderId h).2.1
  · intro outcome hchg
    cases h : placeOrderTry outcome with
    | error message => exact absurd (handlePlaceOrder_of_error s hne hidle _ message h).1 hchg
    | ok orderId =>
      rcases placeOrderTry_ok_inv outcome orderId h with ⟨status, error, ho, hs⟩
      exact ⟨(handlePlaceOrder_of_ok s hne hidle _ orderId h).1, status, _, ho, hs⟩

/-- Instance of C6: a 500 response leaves the sample cart of one `A` as it was. -/
theorem placeOrder_failure_keeps_cart_witness :
    (handlePlaceOrder (addToOrder sampleStart "A")
        (FetchOutcome.response 500 (ResponseBody.unparseable ""))).currentOrder =
        (addToOrder sampleStart "A").currentOrder ∧
      (handlePlaceOrder (addToOrder sampleStart "A")
        (FetchOutcome.response 500 (ResponseBody.unparseable ""))).isSubmitting = false :=
  (placeOrder_failure_keeps_cart (addToOrder sampleStart "A") (by decide) rfl).2.1
    500 (ResponseBody.unparseable "") rfl

/-- C10, as stated, fails: for a 500 response with body `{error: "out of stock"}`
the text shown by `alert` is the message inside a fixed frame, not the message
alone. -/
theorem placeOrder_alert_is_not_bare_message :
    (handlePlaceOrder (addToOrder sampleStart "A")
        (FetchOutcome.response 500
          (ResponseBody.object (some "out of stock") none))).alerts =
        ["Failed to place order: out of stock\n\nPlease try again."] ∧
      "Failed to place order: out of stock\n\nPlease try again." ≠ "out of stock" := by
  constructor
  · rfl
  · decide

/-- C10, amended: for a non-empty cart with no submission in flight and a
non-success response whose JSON body is an object carrying a non-empty error
string `e`, the error thrown has message exactly `e` and the text shown by
`alert` is `e` between the fixed prefix `Failed to place order: ` and the
fixed suffix; when the body is a JSON object with no `error` property or with
the empty string as `error`, or the body does not parse as JSON, the message
framed in the same way is `Order failed: ` followed by the status code. -/
theorem placeOrder_alert_frames_server_message (s : MenuState) (hne : s.currentOrder ≠ [])
    (hidle : s.isSubmitting = false) (status : Nat) (hs : responseOk status = false) :
    (∀ (e : String) (orderId : Option String), e ≠ "" →
      placeOrderTry (FetchOutcome.response status (ResponseBody.object (some e) orderId)) =
          Except.error e ∧
        (handlePlaceOrder s
            (FetchOutcome.response status (ResponseBody.object (some e) orderId))).alerts =
          s.alerts ++ ["Failed to place order: " ++ e ++ "\n\nPlease try again."]) ∧
      (∀ orderId : Option String,
        (handlePlaceOrder s
            (FetchOutcome.response status (ResponseBody.object none orderId))).alerts =
          s.alerts ++
            ["Failed to place order: " ++ ("Order failed: " ++ toString status) ++
              "\n\nPlease try again."]) ∧
      (∀ orderId : Option String,
        (handlePlaceOrder s
            (FetchOutcome.response status (ResponseBody.object (some "") orderId))).alerts =
          s.alerts ++
            ["Failed to place order: " ++ ("Order failed: " ++ toString status) ++
              "\n\nPlease try again."]) ∧
      (∀ m : String,
        (handlePlaceOrder s
            (FetchOutcome.response status (ResponseBody.unparseable m))).alerts =
          s.alerts ++
            ["Failed to place order: " ++ ("Order failed: " ++ toString status) ++
              "\n\nPlease try again."]) := by
  refine ⟨?_, ?_, ?_, ?_⟩
  · intro e orderId he
    have htry : placeOrderTry
        (FetchOutcome.response status (ResponseBody.object (some e) orderId)) =
        Except.error e := by
      simp [placeOrderTry, hs, errorMessageOf, he]
    exact ⟨htry, (handlePlaceOrder_of_error s hne hidle _ e htry).2.2⟩
  · intro orderId
    exact (handlePlaceOrder_of_error s hne hidle _ _
      (by simp [placeOrderTry, hs, errorMessageOf])).2.2
  · intro orderId
    exact (handlePlaceOrder_of_error s hne hidle _ _
      (by simp [placeOrderTry, hs, errorMessageOf])).2.2
  · intro m
    exact (handlePlaceOrder_of_error s hne hidle _ _
      (by simp [placeOrderTry, hs, errorMessageOf])).2.2

/-- Instance of amended C10: status 500 with `{error: "out of stock"}`. -/
theorem placeOrder_alert_frames_server_message_witness :
    (handlePlaceOrder (addToOrder sampleStart "A")
        (FetchOutcome.response 500
          (ResponseBody.object (some "out of stock") none))).alerts =
      (addToOrder sampleStart "A").alerts ++
        ["Failed to place order: " ++ "out of stock" ++ "\n\nPlease try again."] :=
  ((placeOrder_alert_frames_server_message (addToOrder sampleStart "A") (by decide) rfl
    500 rfl).1 "out of stock" none (by decide)).2

/-- C9, the failing run: with one `A` in the cart, a click on the button starts
a submission; an `addToOrder` while the request is pending leaves
`isSubmitting` true and writes `disabled = false` on the button. -/
theorem submit_button_enabled_while_pending :
    MenuReachable sampleStart
        (addToOrder (handlePlaceOrderStart (addToOrder sampleStart "A")) "A") ∧
      (addToOrder (handlePlaceOrderStart (addToOrder sampleStart "A")) "A").isSubmitting = true ∧
      (addToOrder (handlePlaceOrderStart (addToOrder sampleStart "A")) "A").placeOrderBtnDisabled
        = false ∧
      (addToOrder (handlePlaceOrderStart (addToOrder sampleStart "A")) "A").currentOrder ≠ [] := by
  refine ⟨?_, rfl, rfl, by decide⟩
  exact MenuReachable.step (MenuEvent.addToOrder "A")
    (MenuReachable.step MenuEvent.placeOrderClick
      (MenuReachable.step (MenuEvent.addToOrder "A") MenuReachable.start
        (MenuStep.add _ _))
      (MenuStep.click _))
    (MenuStep.add _ _)

/-! ## Totals: binary64 accumulation -/

theorem pow2_neg_natCast (k : Nat) : pow2 (-(k : Int)) = 1 / ((2 : ℚ) ^ k) := by
  unfold pow2
  by_cases hk : k = 0
  · subst hk; simp
  · have : ¬ (0 : Int) ≤ -(k : Int) := by omega
    simp [this]

theorem roundHalfEven_natCast (N : Nat) : roundHalfEven (N : ℚ) = N := by
  unfold roundHalfEven
  simp

theorem log2Fuel_eq_log2 (fuel n : Nat) (h : n ≤ fuel) : log2Fuel fuel n = Nat.log2 n := by
  induction fuel generalizing n with
  | zero =>
    have : n = 0 := by omega
    subst this
    rw [Nat.log2]
    simp [log2Fuel]
  | succ fuel ih =>
    rw [Nat.log2]
    by_cases h2 : n < 2
    · have : ¬ n ≥ 2 := by omega
      simp [log2Fuel, h2, this]
    · have hge : n ≥ 2 := by omega
      have hhalf : n / 2 ≤ fuel := by omega
      simp [log2Fuel, h2, hge, ih _ hhalf]

theorem natLog2_eq_log2 (n : Nat) : natLog2 n = Nat.log2 n :=
  log2Fuel_eq_log2 n n (Nat.le_refl n)

theorem floorLog2_natCast (n : Nat) (hn : n ≠ 0) : floorLog2 (n : ℚ) = (Nat.log2 n : Int) := by
  unfold floorLog2
  rw [natLog2_eq_log2, natLog2_eq_log2]
  have h1 : ((n : ℚ)).num.natAbs = n := by simp
  have h2 : ((n : ℚ)).den = 1 := by simp
  have h3 : Nat.log2 1 = 0 := by
    have := (Nat.log2_lt (by decide : (1 : Nat) ≠ 0)).2 (by decide : 1 < 2 ^ 1)
    omega
  simp only [h1, h2, h3, Nat.cast_zero, sub_zero]
  have hle : 2 ^ Nat.log2 n ≤ n := Nat.log2_self_le hn
  have : ¬ ((n : ℚ) < pow2 (Nat.log2 n : Int)) := by
    unfold pow2
    simp only [Int.natCast_nonneg, if_true, Int.toNat_ofNat, not_lt]
    exact_mod_cast hle
  simp [this]

theorem roundDouble_natCast (n : Nat) (hn : n < 2 ^ 53) : roundDouble (n : ℚ) = JsNum.fin n := by
  by_cases h0 : n = 0
  · subst h0; simp [roundDouble]
  · have hpos : (0 : ℚ) < n := by exact_mod_cast Nat.pos_of_ne_zero h0
    have hne : (n : ℚ) ≠ 0 := ne_of_gt hpos
    have hlog : Nat.log2 n < 53 := (Nat.log2_lt h0).2 hn
    obtain ⟨k, hk⟩ : ∃ k : Nat, k = 52 - Nat.log2 n := ⟨_, rfl⟩
    have hu : max ((Nat.log2 n : Int) - 52) (-1074) = -(k : Int) := by
      rw [max_eq_left (by omega)]; omega
    have hK : ((2 : ℚ) ^ k) ≠ 0 := by positivity
    have hdiv : (n : ℚ) / (1 / (2 : ℚ) ^ k) = ((n * 2 ^ k : Nat) : ℚ) := by
      push_cast; field_simp
    have hbig : ¬ (pow2 1024 ≤ (n : ℚ)) := by
      have hp : pow2 1024 = ((2 ^ 1024 : Nat) : ℚ) := by
        unfold pow2
        rw [if_pos (by decide), show (1024 : Int).toNat = 1024 from rfl]
      have h1 : n < 2 ^ 1024 :=
        lt_of_lt_of_le hn (Nat.pow_le_pow_right (by decide) (by decide))
      rw [hp, not_le]
      exact_mod_cast h1
    unfold roundDouble
    simp only [hne, if_false, abs_of_pos hpos, floorLog2_natCast n h0, hu, pow2_neg_natCast,
      hdiv, roundHalfEven_natCast]
    have hv : ((n * 2 ^ k : Nat) : ℚ) * (1 / (2 : ℚ) ^ k) = (n : ℚ) := by
      push_cast; field_simp
    rw [hv]
    simp [hbig, hpos]

theorem exactTotal_cons_fin (l : CartLine) (ls : List CartLine) (p : ℚ)
    (hp : l.price = JsNum.fin p) :
    exactTotal (l :: ls) = (exactTotal ls).map (fun t => p * (l.quantity : ℚ) + t) := by
  simp only [exactTotal, hp]
  cases exactTotal ls <;> rfl

theorem exactTotal_whole (cart : List CartLine) (hw : WholePrices cart) :
    ∃ m : Nat, exactTotal cart = some (m : ℚ) := by
  induction cart with
  | nil => exact ⟨0, by simp [exactTotal]⟩
  | cons l ls ih =>
    obtain ⟨n, hn⟩ := hw l (List.mem_cons_self _ _)
    obtain ⟨m, hm⟩ := ih (fun l hl => hw l (List.mem_cons_of_mem _ hl))
    refine ⟨n * l.quantity + m, ?_⟩
    rw [exactTotal_cons_fin l ls n hn, hm]
    simp

theorem foldl_total_whole (cart : List CartLine) (hw : WholePrices cart) (acc m : Nat)
    (hm : exactTotal cart = some (m : ℚ)) (hb : acc + m < 2 ^ 53) :
    cart.foldl (fun sum item => jsAdd sum (jsMul item.price (JsNum.ofNat item.quantity)))
        (JsNum.fin (acc : ℚ)) = JsNum.fin ((acc + m : Nat) : ℚ) := by
  induction cart generalizing acc m with
  | nil =>
    simp only [exactTotal, Option.some.injEq] at hm
    have : m = 0 := by exact_mod_cast hm.symm
    subst this
    simp
  | cons l ls ih =>
    obtain ⟨n, hn⟩ := hw l (List.mem_cons_self _ _)
    have hws : WholePrices ls := fun l hl => hw l (List.mem_cons_of_mem _ hl)
    obtain ⟨m1, hm1⟩ := exactTotal_whole ls hws
    rw [exactTotal_cons_fin l ls n hn, hm1] at hm
    simp only [Option.map_some', Option.some.injEq] at hm
    have hmeq : m = n * l.quantity + m1 := by exact_mod_cast hm.symm
    subst hmeq
    have hmul : jsMul l.price (JsNum.ofNat l.quantity) =
        JsNum.fin ((n * l.quantity : Nat) : ℚ) := by
      rw [hn]
      simp only [jsMul, JsNum.ofNat]
      rw [← Nat.cast_mul]
      exact roundDouble_natCast _ (by omega)
    have hadd : jsAdd (JsNum.fin (acc : ℚ)) (JsNum.fin ((n * l.quantity : Nat) : ℚ)) =
        JsNum.fin ((acc + n * l.quantity : Nat) : ℚ) := by
      simp only [jsAdd]
      rw [← Nat.cast_add]
      exact roundDouble_natCast _ (by omega)
    rw [List.foldl_cons, hmul, hadd, ih hws (acc + n * l.quantity) m1 hm1 (by omega)]
    congr 2
    omega

theorem orderTotal_whole (cart : List CartLine) (hw : WholePrices cart) (m : Nat)
    (hm : exactTotal cart = some (m : ℚ)) (hb : m < 2 ^ 53) :
    orderTotal cart = JsNum.fin (m : ℚ) := by
  have := foldl_total_whole cart hw 0 m hm (by omega)
  simpa [orderTotal] using this

/-- C4, as stated, fails: with unit prices `0.1` and `0.2` (as binary64 values)
and one unit of each in the cart, the total computed by `updateOrderDisplay`
is the binary64 value `0.30000000000000004`, which is not the exact sum of the
two prices. -/
theorem orderTotal_differs_from_exact_sum :
    (updateOrderDisplay
        (runCartOps sampleStart [CartOp.add "A", CartOp.add "B"])).orderTotalText =
        TotalText.toFixed2 (JsNum.fin (1351079888211149 / 4503599627370496)) ∧
      exactTotal (runCartOps sampleStart [CartOp.add "A", CartOp.add "B"]).currentOrder =
        some (10808639105689191 / 36028797018963968) ∧
      (1351079888211149 / 4503599627370496 : ℚ) ≠ 10808639105689191 / 36028797018963968 := by
  decide!

/-- C4, amended: after any sequence of `addToOrder` and `removeFromOrder` calls
`updateOrderDisplay` shows `0.00` for the empty cart and otherwise the
`toFixed(2)` text of the left-to-right binary64 sum, starting from 0, of the
binary64 products `price × quantity` of the lines in the cart (two-decimal
rounding only in the formatting); that sum equals the exact sum whenever the
unit prices are whole numbers and the exact sum is below `2 ^ 53`, and then
`addToOrder("A")` twice and `addToOrder("B")` once give `2 × price(A) + price(B)`. -/
theorem orderTotal_binary64_sum (menu : List MenuItem) (btnDisabled : Bool)
    (totalText : String) (ops : List CartOp) :
    ((runCartOps (MenuState.init menu btnDisabled totalText) ops).currentOrder = [] →
      (updateOrderDisplay
        (runCartOps (MenuState.init menu btnDisabled totalText) ops)).orderTotalText =
        TotalText.literal "0.00") ∧
      ((runCartOps (MenuState.init menu btnDisabled totalText) ops).currentOrder ≠ [] →
        (updateOrderDisplay
          (runCartOps (MenuState.init menu btnDisabled totalText) ops)).orderTotalText =
          TotalText.toFixed2
            ((runCartOps (MenuState.init menu btnDisabled totalText) ops).currentOrder.foldl
              (fun sum item => jsAdd sum (jsMul item.price (JsNum.ofNat item.quantity)))
              (JsNum.fin 0))) ∧
      (∀ m : Nat,
        WholePrices (runCartOps (MenuState.init menu btnDisabled totalText) ops).currentOrder →
        exactTotal (runCartOps (MenuState.init menu btnDisabled totalText) ops).currentOrder =
          some (m : ℚ) →
        m < 2 ^ 53 →
        orderTotal (runCartOps (MenuState.init menu btnDisabled totalText) ops).currentOrder =
          JsNum.fin (m : ℚ)) ∧
      (∀ (a b : MenuItem) (pa pb : Nat),
        menu.find? (fun item => item.id == "A") = some a →
        menu.find? (fun item => item.id == "B") = some b →
        a.price = JsNum.fin (pa : ℚ) → b.price = JsNum.fin (pb : ℚ) →
        2 * pa + pb < 2 ^ 53 →
        orderTotal (runCartOps (MenuState.init menu btnDisabled totalText)
            [CartOp.add "A", CartOp.add "A", CartOp.add "B"]).currentOrder =
          JsNum.fin ((2 * pa + pb : Nat) : ℚ)) := by
  refine ⟨?_, ?_, ?_, ?_⟩
  · intro h
    simp [updateOrderDisplay, h]
  · intro h
    have hlen : ¬ (runCartOps (MenuState.init menu btnDisabled totalText) ops).currentOrder.length
        = 0 := fun h0 => h (List.length_eq_zero.1 h0)
    simp only [updateOrderDisplay, hlen, if_false, orderTotal]
  · intro m hw hm hb
    exact orderTotal_whole _ hw m hm hb
  · intro a b pa pb ha hb hpa hpb hlt
    rw [cart_after_two_A_one_B menu btnDisabled totalText a b ha hb]
    apply orderTotal_whole
    · intro l hl
      simp only [List.mem_cons, List.mem_singleton, List.not_mem_nil, or_false] at hl
      rcases hl with hl | hl
      · exact ⟨pa, by rw [hl]; exact hpa⟩
      · exact ⟨pb, by rw [hl]; exact hpb⟩
    · simp only [exactTotal, hpa, hpb]
      congr 1
      push_cast
      ring
    · exact hlt

/-- Instance of amended C4: prices 3 and 5, two `A` and one `B` total 11. -/
theorem orderTotal_binary64_sum_witness :
    orderTotal (runCartOps (MenuState.init wholeMenu true "0.00")
        [CartOp.add "A", CartOp.add "A", CartOp.add "B"]).currentOrder =
      JsNum.fin ((2 * 3 + 5 : Nat) : ℚ) :=
  (orderTotal_binary64_sum wholeMenu true "0.00" []).2.2.2
    { id := "A", name := "Apple", description := "", category := "juice",
      price := JsNum.fin 3, imageUrl := "" }
    { id := "B", name := "Berry", description := "", category := "juice",
      price := JsNum.fin 5, imageUrl := "" }
    3 5 rfl rfl (by simp) (by simp) (by decide)

/-! ## Kitchen display: the order list stays sorted -/

theorem insertSorted_toValue (o : Order) (os : List Order) :
    insertSorted o.toValue (os.map Order.toValue) =
      Except.ok ((insertOrder o os).map Order.toValue) := by
  induction os with
  | nil => rfl
  | cons y ys ih =>
    simp only [List.map_cons, insertSorted, insertOrder, Order.toValue, compareTimestamps]
    by_cases h : o.timestamp - y.timestamp < 0
    · simp [h, Order.toValue]
    · have ih2 := ih
      simp only [Order.toValue] at ih2
      simp [h, ih2, Order.toValue]

theorem foldlM_insertSorted_toValue (os acc : List Order) :
    (os.map Order.toValue).foldlM (fun sorted x => insertSorted x sorted)
        (acc.map Order.toValue) =
      Except.ok ((os.foldl (fun sorted o => insertOrder o sorted) acc).map Order.toValue) := by
  induction os generalizing acc with
  | nil => rfl
  | cons o os ih =>
    simp only [List.map_cons, List.foldlM_cons, List.foldl_cons, insertSorted_toValue]
    exact ih (insertOrder o acc)

theorem arraySort_toValue (os : List Order) :
    arraySort (os.map Order.toValue) = Except.ok ((sortOrders os).map Order.toValue) :=
  foldlM_insertSorted_toValue os []

theorem insertOrder_perm (o : Order) (os : List Order) :
    (insertOrder o os).Perm (o :: os) := by
  induction os with
  | nil => exact List.Perm.refl _
  | cons y ys ih =>
    simp only [insertOrder]
    split
    · exact List.Perm.refl _
    · exact (List.Perm.cons y ih).trans (List.Perm.swap o y ys)

theorem insertOrder_sorted (o : Order) (os : List Order)
    (h : os.Pairwise (fun a b => a.timestamp ≤ b.timestamp)) :
    (insertOrder o os).Pairwise (fun a b => a.timestamp ≤ b.timestamp) := by
  induction os with
  | nil => simp [insertOrder]
  | cons y ys ih =>
    rw [List.pairwise_cons] at h
    simp only [insertOrder]
    by_cases hlt : o.timestamp - y.timestamp < 0
    · simp only [hlt, if_true, List.pairwise_cons]
      refine ⟨?_, h⟩
      intro b hb
      rcases List.mem_cons.1 hb with hb | hb
      · rw [hb]; omega
      · have := h.1 b hb; omega
    · simp only [hlt, if_false, List.pairwise_cons]
      refine ⟨?_, ih h.2⟩
      intro b hb
      rcases List.mem_cons.1 ((insertOrder_perm o ys).subset hb) with hb | hb
      · rw [hb]; omega
      · exact h.1 b hb

theorem foldl_insertOrder_sorted (os acc : List Order)
    (h : acc.Pairwise (fun a b => a.timestamp ≤ b.timestamp)) :
    (os.foldl (fun sorted o => insertOrder o sorted) acc).Pairwise
      (fun a b => a.timestamp ≤ b.timestamp) := by
  induction os generalizing acc with
  | nil => exact h
  | cons o os ih => exact ih _ (insertOrder_sorted o acc h)

theorem foldl_insertOrder_perm (os acc : List Order) :
    (os.foldl (fun sorted o => insertOrder o sorted) acc).Perm (acc ++ os) := by
  induction os generalizing acc with
  | nil => simp
  | cons o os ih =>
    refine (ih (insertOrder o acc)).trans ?_
    refine ((insertOrder_perm o acc).append_right os).trans ?_
    simp only [List.cons_append]
    exact (List.perm_middle).symm

theorem sortOrders_sorted (os : List Order) :
    (sortOrders os).Pairwise (fun a b => a.timestamp ≤ b.timestamp) :=
  foldl_insertOrder_sorted os [] List.Pairwise.nil

theorem sortOrders_perm (os : List Order) : (sortOrders os).Perm os := by
  simpa [sortOrders] using foldl_insertOrder_perm os []

theorem renderFrom_toValue (len : Nat) (os : List Order) (index : Nat)
    (cards : List OrderCard) (timers : List Timer) :
    ∃ ts : List Timer,
      renderFrom len index (os.map Order.toValue) cards timers =
        (cards ++ cardsFrom len index os, ts, none) := by
  induction os generalizing index cards timers with
  | nil => exact ⟨timers, by simp [renderFrom, cardsFrom]⟩
  | cons o os ih =>
    obtain ⟨ts, hts⟩ := ih (index + 1) (cards ++ [cardOf o (decide (index = len - 1))])
      (timers ++ (createOrderCard o.toValue (decide (index = len - 1))).1)
    refine ⟨ts, ?_⟩
    simp only [List.map_cons, renderFrom, cardsFrom]
    simp only [createOrderCard, Order.toValue, cardOf] at hts ⊢
    rw [hts]
    simp

theorem cardsFrom_orderTime (len : Nat) (os : List Order) (index : Nat) :
    (cardsFrom len index os).map (fun c => c.orderTime) = os.map (fun o => o.timestamp) := by
  induction os generalizing index with
  | nil => rfl
  | cons o os ih => simp [cardsFrom, cardOf, ih]

theorem timestampsOf_toValue (os : List Order) :
    timestampsOf (os.map Order.toValue) = os.map (fun o => o.timestamp) := by
  induction os with
  | nil => rfl
  | cons o os ih => simp [timestampsOf, Order.toValue, ih]

theorem addOrderToDisplay_toValue (s : KitchenState) (os : List Order) (o : Order)
    (h : s.orders = os.map Order.toValue) :
    (addOrderToDisplay s o.toValue).1.orders = (sortOrders (os ++ [o])).map Order.toValue ∧
      (addOrderToDisplay s o.toValue).1.ordersView =
        OrdersView.cards (cardsFrom (os.length + 1) 0 (sortOrders (os ++ [o]))) ∧
      (addOrderToDisplay s o.toValue).2 = none := by
  have hpush : s.orders ++ [o.toValue] = (os ++ [o]).map Order.toValue := by
    rw [h]; simp
  have hlen : (sortOrders (os ++ [o])).length = os.length + 1 := by
    rw [(sortOrders_perm (os ++ [o])).length_eq]; simp
  obtain ⟨ts, hts⟩ := renderFrom_toValue (os.length + 1) (sortOrders (os ++ [o])) 0 [] s.timers
  simp only [addOrderToDisplay, hpush, arraySort_toValue, renderOrders, List.length_map, hlen,
    Nat.add_one_ne_zero, if_false, hts, List.nil_append]
  simp

theorem receiveOrders_append (s : KitchenState) (received : List Order) (o : Order) :
    receiveOrders s (received ++ [o]) =
      (addOrderToDisplay (receiveOrders s received) o.toValue).1 := by
  simp [receiveOrders, List.foldl_append]

theorem receiveOrders_sorted (s : KitchenState) (h0 : s.orders = []) (received : List Order) :
    ∃ os : List Order,
      (receiveOrders s received).orders = os.map Order.toValue ∧
        os.Pairwise (fun a b => a.timestamp ≤ b.timestamp) ∧
        os.Perm received ∧
        (received ≠ [] →
          (receiveOrders s received).ordersView =
            OrdersView.cards (cardsFrom os.length 0 os)) := by
  induction received using List.reverseRecOn with
  | nil => exact ⟨[], by simpa [receiveOrders] using h0, List.Pairwise.nil, List.Perm.refl _,
      fun h => absurd rfl h⟩
  | append_singleton received o ih =>
    obtain ⟨os, hos, _, hperm, _⟩ := ih
    have hadd := addOrderToDisplay_toValue (receiveOrders s received) os o hos
    have hlen : (sortOrders (os ++ [o])).length = os.length + 1 := by
      rw [(sortOrders_perm (os ++ [o])).length_eq]; simp
    refine ⟨sortOrders (os ++ [o]), ?_, sortOrders_sorted _, ?_, ?_⟩
    · rw [receiveOrders_append]; exact hadd.1
    · exact (sortOrders_perm _).trans (hperm.append_right [o])
    · intro _
      rw [receiveOrders_append, hadd.2.1, hlen]

theorem init_orders (indicator : Bool) (text : String) :
    (KitchenState.init indicator text).orders = [] := by
  simp [KitchenState.init, connectToOrderStream, closeCurrent, KitchenState.loaded]

/-- C1: starting from the empty orders list, after each of the calls of
`addOrderToDisplay` on a sequence of well-formed Order records (numeric
timestamps, any arrival order) the orders list holds exactly the records
received so far, in non-decreasing order of timestamp, and the cards rendered
by `renderOrders` show the same timestamps in the same order. -/
theorem orders_sorted_after_each_insert (indicator : Bool) (text : String)
    (received : List Order) (n : Nat) :
    (timestampsOf
        (receiveOrders (KitchenState.init indicator text) (received.take n)).orders).Pairwise
        (fun a b => a ≤ b) ∧
      ((shownCards (receiveOrders (KitchenState.init indicator text)
          (received.take n))).map (fun c => c.orderTime)).Pairwise (fun a b => a ≤ b) ∧
      (received.take n ≠ [] →
        (shownCards (receiveOrders (KitchenState.init indicator text)
            (received.take n))).map (fun c => c.orderTime) =
          timestampsOf
            (receiveOrders (KitchenState.init indicator text) (received.take n)).orders) ∧
      (receiveOrders (KitchenState.init indicator text) (received.take n)).orders.Perm
        ((received.take n).map Order.toValue) := by
  obtain ⟨os, hos, hsorted, hperm, hview⟩ :=
    receiveOrders_sorted (KitchenState.init indicator text) (init_orders indicator text)
      (received.take n)
  have hts : (os.map (fun o => o.timestamp)).Pairwise (fun a b => a ≤ b) :=
    List.pairwise_map.2 hsorted
  have hcards : received.take n ≠ [] →
      (shownCards (receiveOrders (KitchenState.init indicator text)
          (received.take n))).map (fun c => c.orderTime) = os.map (fun o => o.timestamp) := by
    intro hne
    simp only [shownCards, hview hne, cardsFrom_orderTime]
  refine ⟨?_, ?_, ?_, ?_⟩
  · rw [hos, timestampsOf_toValue]; exact hts
  · by_cases hne : received.take n = []
    · have hnil : os = [] := List.Perm.eq_nil (hne ▸ hperm)
      have : (receiveOrders (KitchenState.init indicator text) (received.take n)).ordersView =
          OrdersView.unset := by
        rw [hne]
        simp [receiveOrders, KitchenState.init, connectToOrderStream, closeCurrent,
          KitchenState.loaded]
      simp [shownCards, this]
    · rw [hcards hne]; exact hts
  · intro hne
    rw [hcards hne, hos, timestampsOf_toValue]
  · rw [hos]; exact hperm.map _

/-- Instance of C1: three orders received out of order are shown oldest first. -/
theorem orders_sorted_after_each_insert_witness :
    (shownCards (receiveOrders (KitchenState.init false "")
        (List.take 3
          [ { id := "a", timestamp := 30, items := [] },
            { id := "b", timestamp := 10, items := [] },
            { id := "c", timestamp := 20, items := [] } ]))).map (fun c => c.orderTime) =
      timestampsOf
        (receiveOrders (KitchenState.init false "")
          (List.take 3
            [ { id := "a", timestamp := 30, items := [] },
              { id := "b", timestamp := 10, items := [] },
              { id := "c", timestamp := 20, items := [] } ])).orders :=
  (orders_sorted_after_each_insert false ""
    [ { id := "a", timestamp := 30, items := [] },
      { id := "b", timestamp := 10, items := [] },
      { id := "c", timestamp := 20, items := [] } ] 3).2.2.1 (by decide)

/-! ## Kitchen display: messages leave the stream client alone -/

theorem reconnectCount_append (a b : List Timer) :
    reconnectCount (a ++ b) = reconnectCount a + reconnectCount b := by
  simp [reconnectCount, List.filter_append]

theorem createOrderCard_reconnectCount (order : OrderValue) (isNewest : Bool) :
    reconnectCount (createOrderCard order isNewest).1 = 0 := by
  cases order with
  | null => rfl
  | object id timestamp items =>
    cases items <;> cases isNewest <;> simp [createOrderCard, reconnectCount]

theorem renderFrom_reconnectCount (len : Nat) (os : List OrderValue) (index : Nat)
    (cards : List OrderCard) (timers : List Timer) :
    reconnectCount (renderFrom len index os cards timers).2.1 = reconnectCount timers := by
  induction os generalizing index cards timers with
  | nil => rfl
  | cons o os ih =>
    have hc := createOrderCard_reconnectCount o (decide (index = len - 1))
    simp only [renderFrom]
    rcases hco : createOrderCard o (decide (index = len - 1)) with ⟨ts, res⟩
    rw [hco] at hc
    cases res with
    | ok card =>
      simp only [ih, reconnectCount_append]
      simp only at hc
      omega
    | error e =>
      simp only [reconnectCount_append]
      simp only at hc
      omega

theorem renderOrders_stream (s : KitchenState) :
    (renderOrders s).1.sources = s.sources ∧ (renderOrders s).1.eventSource = s.eventSource ∧
      (renderOrders s).1.connectionStatus = s.connectionStatus ∧
      reconnectCount (renderOrders s).1.timers = reconnectCount s.timers := by
  unfold renderOrders
  split
  · exact ⟨rfl, rfl, rfl, rfl⟩
  · have h := renderFrom_reconnectCount s.orders.length s.orders 0 [] s.timers
    rcases hr : renderFrom s.orders.length 0 s.orders [] s.timers with ⟨cards, timers, err⟩
    rw [hr] at h
    exact ⟨rfl, rfl, rfl, h⟩

theorem addOrderToDisplay_stream (s : KitchenState) (order : OrderValue) :
    (addOrderToDisplay s order).1.sources = s.sources ∧
      (addOrderToDisplay s order).1.eventSource = s.eventSource ∧
      (addOrderToDisplay s order).1.connectionStatus = s.connectionStatus ∧
      reconnectCount (addOrderToDisplay s order).1.timers = reconnectCount s.timers := by
  unfold addOrderToDisplay
  simp only
  cases hsort : arraySort (s.orders ++ [order]) with
  | error e => exact ⟨rfl, rfl, rfl, rfl⟩
  | ok sorted =>
    have h := renderOrders_stream { s with orders := sorted }
    simp only
    rcases hr : renderOrders { s with orders := sorted } with ⟨rendered, err⟩
    rw [hr] at h
    simp only at h
    cases err with
    | some e => exact h
    | none =>
      refine ⟨h.1, h.2.1, h.2.2.1, ?_⟩
      simp only [reconnectCount_append, h.2.2.2]
      rfl

theorem onmessage_stream (s : KitchenState) (data : Option OrderValue) :
    (onmessage s data).sources = s.sources ∧
      (onmessage s data).eventSource = s.eventSource ∧
      (onmessage s data).connectionStatus = s.connectionStatus ∧
      reconnectCount (onmessage s data).timers = reconnectCount s.timers := by
  cases data with
  | none => exact ⟨rfl, rfl, rfl, rfl⟩
  | some order =>
    have h := addOrderToDisplay_stream s order
    simp only [onmessage]
    rcases hr : addOrderToDisplay s order with ⟨t, err⟩
    rw [hr] at h
    cases err <;> exact h

/-! ## Stream client: invariant -/

theorem set_last (older : List ReadyState) (r x : ReadyState) :
    (older ++ [r]).set older.length x = older ++ [x] := by
  induction older with
  | nil => rfl
  | cons a as ih => simp [List.set, ih]

theorem index_of_not_closed (older : List ReadyState) (r : ReadyState)
    (hold : ∀ x ∈ older, x = ReadyState.closed) (i : Nat) (q : ReadyState)
    (h : (older ++ [r])[i]? = some q) (hq : q ≠ ReadyState.closed) :
    i = older.length ∧ q = r := by
  induction older generalizing i with
  | nil =>
    cases i with
    | zero => simp at h; exact ⟨rfl, h.symm⟩
    | succ j => simp at h
  | cons a as ih =>
    cases i with
    | zero =>
      simp at h
      exact absurd (h ▸ hold a (List.mem_cons_self _ _)) hq
    | succ j =>
      simp only [List.cons_append, List.getElem?_cons_succ] at h
      have := ih (fun x hx => hold x (List.mem_cons_of_mem _ hx)) j h
      exact ⟨by simp [this.1], this.2⟩

theorem filter_open_older (older : List ReadyState)
    (hold : ∀ x ∈ older, x = ReadyState.closed) :
    older.filter (fun r => decide (r ≠ ReadyState.closed)) = [] := by
  rw [List.filter_eq_nil_iff]
  intro x hx
  simp [hold x hx]

theorem openSources_of_shape (s : KitchenState) (older : List ReadyState) (r : ReadyState)
    (hs : s.sources = older ++ [r]) (hold : ∀ x ∈ older, x = ReadyState.closed) :
    openSources s = if r = ReadyState.closed then 0 else 1 := by
  simp only [openSources, hs, List.filter_append, filter_open_older older hold, List.nil_append]
  by_cases hr : r = ReadyState.closed <;> simp [List.filter, hr]

theorem reconnectCount_eraseIdx (ts : List Timer) (k : Nat) (t : Timer)
    (h : ts[k]? = some t) :
    reconnectCount (ts.eraseIdx k) + (if t.action = TimerAction.reconnect then 1 else 0) =
      reconnectCount ts := by
  induction ts generalizing k with
  | nil => simp at h
  | cons a as ih =>
    cases k with
    | zero =>
      simp at h
      subst h
      by_cases ha : a.action = TimerAction.reconnect <;>
        simp [reconnectCount, List.filter, ha]
    | succ j =>
      simp only [List.getElem?_cons_succ] at h
      have := ih j h
      simp only [List.eraseIdx_cons_succ]
      by_cases ha : a.action = TimerAction.reconnect
      · simp only [reconnectCount, List.filter, ha, decide_True, List.length_cons] at this ⊢
        omega
      · simp only [reconnectCount, List.filter, ha, decide_False] at this ⊢
        omega

theorem init_streamInvariant (indicator : Bool) (text : String) :
    StreamInvariant (KitchenState.init indicator text) := by
  refine ⟨⟨[], ReadyState.connecting, rfl, by simp, rfl⟩, ?_⟩
  rfl

theorem onerror_of_shape (s : KitchenState) (older : List ReadyState) (r : ReadyState)
    (hs : s.sources = older ++ [r]) (he : s.eventSource = some older.length) :
    (onerror s).sources = older ++ [ReadyState.closed] ∧
      (onerror s).eventSource = some older.length ∧
      (onerror s).connectionStatus = ConnectionStatus.disconnected ∧
      (onerror s).timers = s.timers ++ [{ action := TimerAction.reconnect, delay := 5000 }] := by
  simp [onerror, closeCurrent, updateConnectionStatus, he, hs, set_last]

theorem connectToOrderStream_of_shape (s : KitchenState) (older : List ReadyState)
    (r : ReadyState) (hs : s.sources = older ++ [r]) (he : s.eventSource = some older.length) :
    (connectToOrderStream s).sources = (older ++ [ReadyState.closed]) ++ [ReadyState.connecting] ∧
      (connectToOrderStream s).eventSource = some (older ++ [ReadyState.closed]).length ∧
      (connectToOrderStream s).connectionStatus = s.connectionStatus ∧
      (connectToOrderStream s).timers = s.timers := by
  simp [connectToOrderStream, closeCurrent, he, hs, set_last]

theorem step_streamInvariant {s t : KitchenState} (hstep : KitchenStep s t)
    (hinv : StreamInvariant s) : StreamInvariant t := by
  obtain ⟨⟨older, r, hs, hold, he⟩, hcount⟩ := hinv
  have hopen := openSources_of_shape s older r hs hold
  cases hstep with
  | openSignal i h =>
    rw [hs] at h
    obtain ⟨hi, hr⟩ := index_of_not_closed older r hold i _ h (by decide)
    subst hi
    have hsrc : (onopen { s with sources := s.sources.set older.length ReadyState.opened }).sources
        = older ++ [ReadyState.opened] := by
      simp [onopen, updateConnectionStatus, hs, set_last]
    refine ⟨⟨older, ReadyState.opened, hsrc, hold, ?_⟩, ?_⟩
    · simpa [onopen, updateConnectionStatus] using he
    · rw [openSources_of_shape _ older ReadyState.opened hsrc hold]
      rw [hopen, ← hr] at hcount
      simpa [onopen, updateConnectionStatus, pendingReconnects] using hcount
  | message i data h =>
    have hm := onmessage_stream s data
    refine ⟨⟨older, r, by rw [hm.1, hs], hold, by rw [hm.2.1, he]⟩, ?_⟩
    have h1 : openSources (onmessage s data) = openSources s := by
      simp [openSources, hm.1]
    have h2 : pendingReconnects (onmessage s data) = pendingReconnects s := hm.2.2.2
    rw [h1, h2]; exact hcount
  | errorSignal i fatal q h hq =>
    unfold signalError
    rw [hs] at h
    obtain ⟨hi, hr⟩ := index_of_not_closed older r hold i q h hq
    subst hi
    have hpend : pendingReconnects s = 0 := by
      rw [hopen, ← hr, if_neg hq] at hcount
      omega
    have hsrc0 : (s.sources.set older.length
        (if fatal = true then ReadyState.closed else ReadyState.connecting)) =
        older ++ [if fatal = true then ReadyState.closed else ReadyState.connecting] := by
      rw [hs, set_last]
    have hon := onerror_of_shape
      { s with
        sources :=
          s.sources.set older.length
            (if fatal = true then ReadyState.closed else ReadyState.connecting) }
      older _ hsrc0 he
    refine ⟨⟨older, ReadyState.closed, hon.1, hold, hon.2.1⟩, ?_⟩
    rw [openSources_of_shape _ older ReadyState.closed hon.1 hold]
    have : pendingReconnects s = reconnectCount s.timers := rfl
    simp only [pendingReconnects] at hpend ⊢
    rw [hon.2.2.2]
    simp only [List.filter_append, List.length_append, hpend]
    rfl
  | timerFired k tm h =>
    unfold fireTimer
    have herase := reconnectCount_eraseIdx s.timers k tm h
    have hp : pendingReconnects s = reconnectCount s.timers := rfl
    cases hact : tm.action with
    | reconnect =>
      rw [hact] at herase
      simp only [if_true] at herase
      have hclosed : r = ReadyState.closed := by
        by_contra hne
        rw [hopen, if_neg hne] at hcount
        omega
      have hzero : reconnectCount (s.timers.eraseIdx k) = 0 := by
        rw [hopen, if_pos hclosed] at hcount
        omega
      have hc := connectToOrderStream_of_shape
        { s with timers := s.timers.eraseIdx k } older r hs he
      simp only [runTimer]
      refine ⟨⟨older ++ [ReadyState.closed], ReadyState.connecting, hc.1, ?_, hc.2.1⟩, ?_⟩
      · intro x hx
        rcases List.mem_append.1 hx with hx | hx
        · exact hold x hx
        · simpa using hx
      · rw [openSources_of_shape _ (older ++ [ReadyState.closed]) ReadyState.connecting hc.1
          (by
            intro x hx
            rcases List.mem_append.1 hx with hx | hx
            · exact hold x hx
            · simpa using hx)]
        have : pendingReconnects (connectToOrderStream { s with timers := s.timers.eraseIdx k })
            = reconnectCount (s.timers.eraseIdx k) := by
          simp only [pendingReconnects, hc.2.2.2]; rfl
        rw [this, hzero]
        rfl
    | scrollToNewestOrder =>
      rw [hact] at herase
      simp only [runTimer]
      refine ⟨⟨older, r, hs, hold, he⟩, ?_⟩
      have h1 : openSources { s with timers := s.timers.eraseIdx k } = openSources s := rfl
      have h2 : pendingReconnects { s with timers := s.timers.eraseIdx k } =
          reconnectCount (s.timers.eraseIdx k) := rfl
      rw [h1, h2]
      simp at herase
      omega
    | removeNewOrderClass cardId =>
      rw [hact] at herase
      simp only [runTimer]
      refine ⟨⟨older, r, hs, hold, he⟩, ?_⟩
      have h1 : openSources { s with timers := s.timers.eraseIdx k } = openSources s := rfl
      have h2 : pendingReconnects { s with timers := s.timers.eraseIdx k } =
          reconnectCount (s.timers.eraseIdx k) := rfl
      rw [h1, h2]
      simp at herase
      omega

theorem reachable_streamInvariant {indicator : Bool} {text : String} {s : KitchenState}
    (h : KitchenReachable indicator text s) : StreamInvariant s := by
  induction h with
  | start => exact init_streamInvariant indicator text
  | step _ hstep ih => exact step_streamInvariant hstep ih

theorem getElem?_last (older : List ReadyState) (r : ReadyState) :
    (older ++ [r])[older.length]? = some r := by
  induction older with
  | nil => rfl
  | cons a as ih => simp [ih]

theorem getElem?_older (older : List ReadyState) (rest : List ReadyState)
    (hold : ∀ x ∈ older, x = ReadyState.closed) (j : Nat) (hj : j < older.length) :
    (older ++ rest)[j]? = some ReadyState.closed := by
  rw [List.getElem?_append_left hj]
  rw [List.getElem?_eq_getElem hj]
  exact congrArg some (hold _ (List.getElem_mem _))

/-- C7: in every state of the stream client reachable after page load, at most
one source is not closed, and for every source that is not closed one error
signal on it sets `connectionStatus` to disconnected, leaves that source and
every other closed, and adds to the pending timers exactly one timer, a
reconnection with delay 5000 ms (the only reconnection then pending, whatever
happened before); when that timer fires, every earlier source is closed and
one new source, which `eventSource` refers to, is the only one not closed.
The `open` signal sets the status to connected. `connectToOrderStream` run in
any reachable state, also one whose source is still connecting or open, leaves
every existing source closed and exactly one source, the new one, not closed.
In any state at all, `onerror` sets the status and the indicator to
disconnected, closes the source `eventSource` refers to and appends the one
reconnection timer of 5000 ms, and `connectToOrderStream` closes the source
`eventSource` refers to before it appends the new one. -/
theorem stream_error_schedules_one_reconnect (indicator : Bool) (text : String)
    (s : KitchenState) (hreach : KitchenReachable indicator text s) :
    openSources s ≤ 1 ∧
      (∀ (i : Nat) (r : ReadyState) (fatal : Bool),
        s.sources[i]? = some r → r ≠ ReadyState.closed →
        (signalError s i fatal).connectionStatus = ConnectionStatus.disconnected ∧
          (signalError s i fatal).sources[i]? = some ReadyState.closed ∧
          openSources (signalError s i fatal) = 0 ∧
          (signalError s i fatal).timers =
            s.timers ++ [{ action := TimerAction.reconnect, delay := 5000 }] ∧
          pendingReconnects (signalError s i fatal) = 1 ∧
          (∀ j : Nat, j < (signalError s i fatal).sources.length →
            (fireTimer (signalError s i fatal) s.timers.length
              TimerAction.reconnect).sources[j]? = some ReadyState.closed) ∧
          (fireTimer (signalError s i fatal) s.timers.length
              TimerAction.reconnect).sources.length =
            (signalError s i fatal).sources.length + 1 ∧
          (fireTimer (signalError s i fatal) s.timers.length
              TimerAction.reconnect).eventSource =
            some (signalError s i fatal).sources.length ∧
          openSources (fireTimer (signalError s i fatal) s.timers.length
            TimerAction.reconnect) = 1 ∧
          pendingReconnects (fireTimer (signalError s i fatal) s.timers.length
            TimerAction.reconnect) = 0) ∧
      (∀ i : Nat, s.sources[i]? = some ReadyState.connecting →
        (onopen { s with sources := s.sources.set i ReadyState.opened }).connectionStatus =
          ConnectionStatus.connected) ∧
      ((∀ j : Nat, j < s.sources.length →
          (connectToOrderStream s).sources[j]? = some ReadyState.closed) ∧
        (connectToOrderStream s).sources[s.sources.length]? = some ReadyState.connecting ∧
        (connectToOrderStream s).sources.length = s.sources.length + 1 ∧
        (connectToOrderStream s).eventSource = some s.sources.length ∧
        openSources (connectToOrderStream s) = 1) ∧
      (∀ t : KitchenState,
        (onerror t).connectionStatus = ConnectionStatus.disconnected ∧
          (onerror t).indicatorDisconnected = true ∧
          (onerror t).statusText = "Disconnected" ∧
          (onerror t).timers =
            t.timers ++ [{ action := TimerAction.reconnect, delay := 5000 }] ∧
          (onerror t).sources.length = t.sources.length ∧
          (∀ i : Nat, t.eventSource = some i → i < t.sources.length →
            (onerror t).sources[i]? = some ReadyState.closed)) ∧
      (∀ t : KitchenState,
        (connectToOrderStream t).sources.length = t.sources.length + 1 ∧
          (connectToOrderStream t).sources[t.sources.length]? = some ReadyState.connecting ∧
          (connectToOrderStream t).eventSource = some t.sources.length ∧
          (∀ i : Nat, t.eventSource = some i → i < t.sources.length →
            (connectToOrderStream t).sources[i]? = some ReadyState.closed)) := by
  have hinv := reachable_streamInvariant hreach
  obtain ⟨⟨older, r0, hs, hold, he⟩, hcount⟩ := hinv
  have hopen := openSources_of_shape s older r0 hs hold
  have hold1 : ∀ x ∈ older ++ [ReadyState.closed], x = ReadyState.closed := by
    intro x hx
    rcases List.mem_append.1 hx with hx | hx
    · exact hold x hx
    · simpa using hx
  refine ⟨by rw [hopen]; split <;> omega, ?_, ?_, ?_, ?_, ?_⟩
  · intro i r fatal h hr
    have hstep : KitchenStep s (signalError s i fatal) :=
      KitchenStep.errorSignal s i fatal r h hr
    have hinv1 := step_streamInvariant hstep ⟨⟨older, r0, hs, hold, he⟩, hcount⟩
    rw [hs] at h
    obtain ⟨hi, hrr⟩ := index_of_not_closed older r0 hold i r h hr
    subst hi
    have hsrc0 : (s.sources.set older.length
        (if fatal = true then ReadyState.closed else ReadyState.connecting)) =
        older ++ [if fatal = true then ReadyState.closed else ReadyState.connecting] := by
      rw [hs, set_last]
    have hon := onerror_of_shape
      { s with
        sources :=
          s.sources.set older.length
            (if fatal = true then ReadyState.closed else ReadyState.connecting) }
      older _ hsrc0 he
    have hon1 : (signalError s older.length fatal).sources = older ++ [ReadyState.closed] :=
      hon.1
    have hon2 : (signalError s older.length fatal).eventSource = some older.length := hon.2.1
    have hon3 : (signalError s older.length fatal).connectionStatus =
        ConnectionStatus.disconnected := hon.2.2.1
    have hon4 : (signalError s older.length fatal).timers =
        s.timers ++ [{ action := TimerAction.reconnect, delay := 5000 }] := hon.2.2.2
    have hopen1 : openSources (signalError s older.length fatal) = 0 := by
      rw [openSources_of_shape _ older ReadyState.closed hon1 hold]; rfl
    have hpend1 : pendingReconnects (signalError s older.length fatal) = 1 := by
      have := hinv1.2
      omega
    have hidx : (signalError s older.length fatal).timers[s.timers.length]? =
        some { action := TimerAction.reconnect, delay := 5000 } := by
      rw [hon4]; simp
    have hstep2 : KitchenStep (signalError s older.length fatal)
        (fireTimer (signalError s older.length fatal) s.timers.length
          TimerAction.reconnect) :=
      KitchenStep.timerFired _ s.timers.length
        { action := TimerAction.reconnect, delay := 5000 } hidx
    have hinv2 := step_streamInvariant hstep2 hinv1
    have hc := connectToOrderStream_of_shape
      { signalError s older.length fatal with
        timers := (signalError s older.length fatal).timers.eraseIdx s.timers.length }
      older ReadyState.closed hon1 hon2
    have hc1 : (fireTimer (signalError s older.length fatal) s.timers.length
        TimerAction.reconnect).sources =
        (older ++ [ReadyState.closed]) ++ [ReadyState.connecting] := hc.1
    have hc2 : (fireTimer (signalError s older.length fatal) s.timers.length
        TimerAction.reconnect).eventSource = some (older ++ [ReadyState.closed]).length :=
      hc.2.1
    have hopen2 : openSources (fireTimer (signalError s older.length fatal) s.timers.length
        TimerAction.reconnect) = 1 := by
      rw [openSources_of_shape _ _ ReadyState.connecting hc1 hold1]; rfl
    refine ⟨hon3, ?_, hopen1, hon4, hpend1, ?_, ?_, ?_, hopen2, ?_⟩
    · rw [hon1]; exact getElem?_last older ReadyState.closed
    · intro j hj
      rw [hon1] at hj
      rw [hc1]
      exact getElem?_older _ _ hold1 j hj
    · rw [hc1, hon1]; simp
    · rw [hc2, hon1]
    · have := hinv2.2
      omega
  · intro i _
    simp [onopen, updateConnectionStatus]
  · have hc := connectToOrderStream_of_shape s older r0 hs he
    have hlen : s.sources.length = (older ++ [ReadyState.closed]).length := by
      rw [hs]; simp
    refine ⟨?_, ?_, ?_, ?_, ?_⟩
    · intro j hj
      rw [hlen] at hj
      rw [hc.1]
      exact getElem?_older _ _ hold1 j hj
    · rw [hc.1, hlen]
      exact getElem?_last _ ReadyState.connecting
    · rw [hc.1, hs]; simp
    · rw [hc.2.1, hlen]
    · rw [openSources_of_shape _ _ ReadyState.connecting hc.1 hold1]; rfl
  · intro t
    cases h : t.eventSource with
    | none => simp [onerror, closeCurrent, updateConnectionStatus, h]
    | some i0 =>
      simp only [onerror, closeCurrent, updateConnectionStatus, h, List.length_set,
        Option.some.injEq, true_and]
      intro i hi hlt
      subst hi
      simp [hlt]
  · intro t
    cases h : t.eventSource with
    | none => simp [connectToOrderStream, closeCurrent, h]
    | some i0 =>
      simp only [connectToOrderStream, closeCurrent, h, List.length_append, List.length_set,
        List.length_singleton, Option.some.injEq, true_and]
      refine ⟨?_, ?_⟩
      · simp
      · intro i hi hlt
        subst hi
        rw [List.getElem?_append_left (by simpa using hlt)]
        simp [hlt]

/-- Instance of C7: after page load and the `open` signal the status is
connected; an error on that open source sets it to disconnected and schedules
the one reconnection, and `connectToOrderStream` run while the source is still
open leaves only the new source not closed. -/
theorem stream_error_schedules_one_reconnect_witness :
    connectedKitchen.connectionStatus = ConnectionStatus.connected ∧
      connectedKitchen.sources[0]? = some ReadyState.opened ∧
      (signalError connectedKitchen 0 false).connectionStatus =
        ConnectionStatus.disconnected ∧
      (signalError connectedKitchen 0 false).timers =
        connectedKitchen.timers ++ [{ action := TimerAction.reconnect, delay := 5000 }] ∧
      openSources (connectToOrderStream connectedKitchen) = 1 :=
  ⟨rfl, rfl,
    ((stream_error_schedules_one_reconnect false "" connectedKitchen
      (KitchenReachable.step KitchenReachable.start
        (KitchenStep.openSignal (KitchenState.init false "") 0 rfl))).2.1
      0 ReadyState.opened false rfl (by decide)).1,
    ((stream_error_schedules_one_reconnect false "" connectedKitchen
      (KitchenReachable.step KitchenReachable.start
        (KitchenStep.openSignal (KitchenState.init false "") 0 rfl))).2.1
      0 ReadyState.opened false rfl (by decide)).2.2.2.1,
    (stream_error_schedules_one_reconnect false "" connectedKitchen
      (KitchenReachable.step KitchenReachable.start
        (KitchenStep.openSignal (KitchenState.init false "") 0 rfl))).2.2.2.1.2.2.2.2⟩

/-- C8, the failing inputs: the payload `null` is pushed onto `orders` before
the handler throws, and a well-formed order received afterwards is pushed but
neither sorted into place nor rendered; an object without `items` is kept in
`orders` as well, and rendering stops at it, so an order with a later
timestamp gets no card. -/
theorem onmessage_keeps_malformed_payload :
    (onmessage (KitchenState.init false "") (some OrderValue.null)).orders =
        [OrderValue.null] ∧
      (onmessage (onmessage (KitchenState.init false "") (some OrderValue.null))
          (some (OrderValue.object "b" 10 (some [])))).orders =
        [OrderValue.null, OrderValue.object "b" 10 (some [])] ∧
      shownCards (onmessage (onmessage (KitchenState.init false "") (some OrderValue.null))
          (some (OrderValue.object "b" 10 (some [])))) = [] ∧
      (onmessage (KitchenState.init false "") (some (OrderValue.object "z" 15 none))).orders =
        [OrderValue.object "z" 15 none] ∧
      shownCards (onmessage
          (onmessage (KitchenState.init false "") (some (OrderValue.object "z" 15 none)))
          (some (OrderValue.object "b" 20 (some [])))) = [] := by
  decide

end JuiceCafe
